import Mathlib

/-! # cozy-stack: permission verbs and the data CRUD handlers

A shallow embedding of `pkg/permissions/verbs.go` and `web/data/data.go`,
followed by the properties proved about them.

Conventions of the embedding:

* a Go `map[Verb]struct{}` is a finite set of strings (`Finset String`): `len` is
  `Finset.card`, the lookup `_, has := vs[v]` is membership, and a `range` loop over a
  map is the set operation the loop computes (the iteration order of a Go map is
  unspecified, and none of the loops depends on it). A nil map and an empty map are
  both `∅`: they are indistinguishable to `len`, lookup, `range` and `delete`;
* a Go string is a Lean `String`; the only separator used is the one-byte `","`, so
  cutting at characters and cutting at bytes agree;
* a runtime panic is the result `none` of a function returning `Option`.
-/

namespace permissions

/-! ## pkg/permissions/verbs.go -/

/-- The separator of a serialized verb set: `const verbSep = ","`. -/
def verbSep : String := ","

/-- The token of the default set: `const allVerbs = "ALL"`. -/
def allVerbs : String := "ALL"

/-- The number of defined verbs: `const allVerbsLength = 5`. -/
def allVerbsLength : Nat := 5

/-- Verb is one of GET,POST,PUT,PATCH,DELETE: `type Verb string`, so any string is a
value of the type. -/
abbrev Verb := String

def GET : Verb := "GET"
def POST : Verb := "POST"
def PUT : Verb := "PUT"
def PATCH : Verb := "PATCH"
def DELETE : Verb := "DELETE"

/-- The canonical order: `var allVerbsOrder = []Verb{GET, POST, PUT, PATCH, DELETE}`. -/
def allVerbsOrder : List Verb := [GET, POST, PUT, PATCH, DELETE]

/-- VerbSet is a Set of Verbs: `type VerbSet map[Verb]struct{}`. -/
abbrev VerbSet := Finset Verb

/-- Contains check if VerbSet contains a Verb. -/
def VerbSet.Contains (vs : VerbSet) (v : Verb) : Bool :=
  if vs.card = 0 then
    true -- empty set = ALL
  else
    decide (v ∈ vs)

/-- Verbs is a utility function to create VerbSets. -/
def Verbs (verbs : List Verb) : VerbSet :=
  verbs.foldl (fun vs v => insert v vs) ∅

/-- ALL : the default VerbSet allows all Verbs. The package never assigns the variable
again, and the embedding covers the executions in which the map it holds is not
modified through an alias, so it is its initial value. -/
def ALL : VerbSet := Verbs [GET, POST, PUT, PATCH, DELETE]

/-- The loop of Go's `strings.Split` for a non-empty separator `sep`: `skip` counts the
characters of a matched separator still to pass over, `cur` is the current piece,
reversed. -/
def splitGo (sep : List Char) : Nat → List Char → List Char → List (List Char)
  | _, [], cur => [cur.reverse]
  | skip + 1, _ :: cs, cur => splitGo sep skip cs cur
  | 0, c :: cs, cur =>
    if sep.isPrefixOf (c :: cs) then cur.reverse :: splitGo sep (sep.length - 1) cs []
    else splitGo sep 0 cs (c :: cur)

/-- Go's `strings.Split(s, sep)` for a non-empty separator: the pieces of `s` between
the occurrences of `sep`, one more piece than there are occurrences. -/
def Split (s sep : String) : List String :=
  (splitGo sep.data 0 s.data []).map String.mk

/-- VerbSplit parse a string into a VerbSet. -/
def VerbSplit (in_ : String) : VerbSet :=
  if in_ = allVerbs then
    ALL
  else
    let verbs := Split in_ verbSep
    verbs.foldl (fun out v => insert v out) ∅

/-- Go's `json.Marshal` on a `[]string` whose strings need no escaping (no quote, no
backslash, no control character): the compact array of the quoted strings. `MarshalJSON`
only passes it defined verbs and empty strings. -/
def jsonMarshal (s : List String) : String :=
  "[" ++ String.intercalate "," (s.map (fun x => "\"" ++ x ++ "\"")) ++ "]"

/-- MarshalJSON implements json.Marshaller on VerbSet: the VerbSet is converted to a json
array. `s` is made with `len(vs)` empty strings and its first entries are overwritten by
the defined verbs the set holds, in the canonical order; the entries left over (one for
each member that is not a defined verb) stay empty. The error of `json.Marshal` is nil
on a slice of strings. -/
def VerbSet.MarshalJSON (vs : VerbSet) : String × Option String :=
  let held := allVerbsOrder.filter (fun v => v ∈ vs)
  let s := held ++ List.replicate (vs.card - held.length) ""
  (jsonMarshal s, none)

/-- UnmarshalJSON implements json.Unmarshaller on VerbSet, it expects a json array.
`jsonUnmarshal` is Go's `json.Unmarshal` into a `[]string`. The receiver `*vs` is a set
that does not alias `ALL`. A nil `*vs` becomes an empty map, which is `∅` again; the first
loop deletes from `*vs` every member of `ALL`; the second loop stores again every key
`*vs` already has. The parsed slice `s` is not read. Returns the error and the set left
in `*vs`. -/
def VerbSet.UnmarshalJSON (jsonUnmarshal : String → Except String (List String))
    (vs : VerbSet) (b : String) : Option String × VerbSet :=
  match jsonUnmarshal b with
  | .error err => (some err, vs)
  | .ok _s =>
    let vs1 := vs \ ALL
    let vs2 := vs1 ∪ vs1
    (none, vs2)

/-- The states of `decodeGo`. -/
inductive DecodeState
  | start
  | first
  | next
  | str
  | after
  | closed
  deriving DecidableEq, Repr

/-- One pass over a compact JSON array of escape-free strings: `cur` is the string being
read, reversed, and `acc` the strings read so far, reversed. -/
def decodeGo : DecodeState → List Char → List String → List Char → Except String (List String)
  | .closed, _, acc, [] => .ok acc.reverse
  | _, _, _, [] => .error "unexpected end of JSON input"
  | .start, cur, acc, c :: cs =>
    if c = '[' then decodeGo .first cur acc cs else .error "json: cannot unmarshal"
  | .first, cur, acc, c :: cs =>
    if c = ']' then decodeGo .closed cur acc cs
    else if c = '"' then decodeGo .str [] acc cs
    else .error "json: cannot unmarshal"
  | .next, _, acc, c :: cs =>
    if c = '"' then decodeGo .str [] acc cs else .error "json: cannot unmarshal"
  | .str, cur, acc, c :: cs =>
    if c = '"' then decodeGo .after [] (String.mk cur.reverse :: acc) cs
    else if c = '\\' then .error "escape sequences are outside the model"
    else decodeGo .str (c :: cur) acc cs
  | .after, cur, acc, c :: cs =>
    if c = ',' then decodeGo .next cur acc cs
    else if c = ']' then decodeGo .closed cur acc cs
    else .error "invalid character after array element"
  | .closed, _, _, _ :: _ => .error "invalid character after top-level value"

/-- An instance of `json.Unmarshal` into a `[]string`, defined on the texts
`jsonMarshal` writes: a compact array of strings without escapes. Anything else is an
error here. -/
def jsonUnmarshalStrings (b : String) : Except String (List String) :=
  decodeGo .start [] [] b.data

/-- The method `func (vs VerbSet) String() string` (declared last here, so that `String`
names the type in the declarations above). The loop appends `verbSep + string(v)`
for each verb of `allVerbsOrder` held by the set; `out[1:]` panics when `out` is empty
(result `none`) and otherwise drops the first byte, which is the separator. -/
def VerbSet.String (vs : VerbSet) : Option String :=
  if vs.card = 0 ∨ vs.card = allVerbsLength then
    some allVerbs
  else
    let out := allVerbsOrder.foldl (fun out v => if v ∈ vs then out ++ (verbSep ++ v) else out) ""
    match out.data with
    | [] => none
    | _ :: rest => some (String.mk rest)

/-- Whether `S` serializes to a string that `VerbSplit` reads back as the same set, and
that set serializes to the same string. -/
def roundTrips (S : VerbSet) : Bool :=
  match VerbSet.String S with
  | some str => decide (VerbSplit str = S) && decide (VerbSet.String (VerbSplit str) = some str)
  | none => false

/-- The members of `S` among the defined verbs, in the canonical order, joined by the
separator: the serialization the specification describes for a restricted set. -/
def canonicalJoin (S : VerbSet) : String :=
  String.intercalate verbSep (allVerbsOrder.filter (fun v => v ∈ S))

end permissions

namespace data

open permissions

/-! ## web/data/data.go

The handlers run against collaborators that are not part of the two embedded files: the
permission checks `CheckReadable` and `CheckWritable` and the functions of the `couchdb`
package. They are the fields of `Env`; the database they act on is a state `σ` that every
store operation may change, and each handler returns, next to its result, the state it
leaves and the list of the store operations it made, in order.
-/

/-- A value of a decoded JSON object; a nested array or object is kept as its text. -/
inductive JSONValue
  | null
  | bool (b : Bool)
  | number (n : Int)
  | string (s : String)
  | raw (text : String)
  deriving DecidableEq, Repr

/-- A decoded JSON object, Go's `map[string]interface{}`. -/
abbrev Map := List (String × JSONValue)

/-- Modelled from the spec: `couchdb.JSONDoc` is declared outside the embedded files. A
document is a decoded JSON object `M` and the doctype `Type`; its id and revision are
the strings under `_id` and `_rev`. -/
structure JSONDoc where
  M : Map
  Type_ : String
  deriving DecidableEq, Repr

/-- The string under `key`, and `""` when there is none or it is not a string. -/
def Map.str (m : Map) (key : String) : String :=
  match m.lookup key with
  | some (.string s) => s
  | _ => ""

/-- Modelled from the spec: `JSONDoc.ID()`, the document id, empty when absent. -/
def JSONDoc.ID (doc : JSONDoc) : String := Map.str doc.M "_id"

/-- Modelled from the spec: `JSONDoc.Rev()`, the document revision, empty when absent. -/
def JSONDoc.Rev (doc : JSONDoc) : String := Map.str doc.M "_rev"

/-- Modelled from the spec: `JSONDoc.DocType()`. -/
def JSONDoc.DocType (doc : JSONDoc) : String := doc.Type_

/-- Modelled from the spec: `JSONDoc.SetID(id)` stores the id under `_id`. -/
def JSONDoc.SetID (doc : JSONDoc) (id : String) : JSONDoc :=
  { doc with M := ("_id", .string id) :: doc.M.filter (fun kv => kv.1 ≠ "_id") }

/-- A Go `error` value: the error `jsonapi.NewError` builds, with its HTTP status, or an
error of a collaborator (a `couchdb.Error`, an `echo.HTTPError`), with the status it
carries. -/
inductive Error
  | jsonapi (status : Nat) (detail : String)
  | foreign (status : Nat) (reason : String)
  deriving DecidableEq, Repr

/-- The method `Error()` of an error: its message. -/
def Error.message : Error → String
  | .jsonapi _ detail => detail
  | .foreign _ reason => reason

def StatusOK : Nat := 200
def StatusCreated : Nat := 201
def StatusBadRequest : Nat := 400
def StatusForbidden : Nat := 403

/-- Modelled from the spec: `jsonapi.NewError(status, ...)` is declared outside the
embedded files; it builds the caller-visible error with the given status and the
formatted detail. With `StatusBadRequest` it is the spec's `InvalidRequest` (and
`InvalidCollection` in `validDoctype`). -/
def NewError (status : Nat) (detail : String) : Error := .jsonapi status detail

/-- The request and its echo context, as far as the handlers read it. -/
structure Context where
  /-- The request method. -/
  method : String
  /-- The path parameters, read by `c.Param`. -/
  params : List (String × String)
  /-- The query parameters `c.QueryParams()`, a `url.Values`; the order of the list is
  the order in which a `range` over the map visits the keys. -/
  query : List (String × List String)
  /-- The request header. -/
  header : List (String × String)
  /-- The result of `c.Bind` into a JSON object. -/
  body : Except Error Map
  /-- The values stored by `c.Set`. -/
  values : List (String × String)
  /-- The instance `middlewares.GetInstance(c)` returns. -/
  inst : String
  /-- The permission set granted to the caller for each doctype. -/
  grants : String → VerbSet

def Context.Param (c : Context) (name : String) : String :=
  (c.params.lookup name).getD ""

def Context.QueryParam (c : Context) (name : String) : String :=
  match c.query.lookup name with
  | some (v :: _) => v
  | _ => ""

def Context.HeaderGet (c : Context) (name : String) : String :=
  (c.header.lookup name).getD ""

def Context.Get (c : Context) (key : String) : Option String :=
  c.values.lookup key

def Context.Set (c : Context) (key val : String) : Context :=
  { c with values := (key, val) :: c.values.filter (fun kv => kv.1 ≠ key) }

def Context.Bind (c : Context) : Except Error Map := c.body

def GetInstance (c : Context) : String := c.inst

/-- The error of a failed permission check, the spec's `Forbidden`. -/
def Forbidden : Error := .foreign StatusForbidden "Forbidden"

/-- Modelled from the spec: `CheckReadable` is declared outside the embedded files; a read
requires `Contains(GET)` of the permission set resolved for the doctype, and a failure
is `Forbidden`. -/
def CheckReadable (c : Context) (doctype : String) : Option Error :=
  if VerbSet.Contains (c.grants doctype) GET then none else some Forbidden

/-- Modelled from the spec: `CheckWritable` is declared outside the embedded files; create
and index definition require `Contains(POST)`, replace `Contains(PUT)` and delete
`Contains(DELETE)`, which is the method each of these handlers is routed under. -/
def CheckWritable (c : Context) (doctype : String) : Option Error :=
  if VerbSet.Contains (c.grants doctype) c.method then none else some Forbidden

/-- The `couchdb.ChangesRequest` passed to `couchdb.GetChanges`. -/
structure ChangesRequest where
  DocType : String
  Feed : String
  Style : String
  Since : String
  Limit : Int
  deriving DecidableEq, Repr

/-- A store operation: a call of a `couchdb` function on the database of an instance,
with its arguments. -/
inductive Call
  | GetDoc (inst doctype docid : String)
  | CreateDoc (inst : String) (doc : JSONDoc)
  | CreateNamedDoc (inst : String) (doc : JSONDoc)
  | UpdateDoc (inst : String) (doc : JSONDoc)
  | Delete (inst doctype docid rev : String)
  | DefineIndexRaw (inst doctype : String) (definition : Map)
  | CreateDB (inst doctype : String)
  | FindDocsRaw (inst doctype : String) (request : Map)
  | GetChanges (inst : String) (request : ChangesRequest)
  deriving DecidableEq, Repr

/-- The collaborators of the handlers. A store operation takes the state of the
database and returns what the Go function returns together with the new state; a
function that fills or updates a document through a pointer returns the document.
`GetChanges` returns both of its Go results, the response (nil or not) and the error. -/
structure Env (σ : Type) where
  CheckReadable : Context → String → Option Error
  CheckWritable : Context → String → Option Error
  GetDoc : σ → String → String → String → Except Error JSONDoc × σ
  CreateDoc : σ → String → JSONDoc → Except Error JSONDoc × σ
  CreateNamedDoc : σ → String → JSONDoc → Except Error JSONDoc × σ
  UpdateDoc : σ → String → JSONDoc → Except Error JSONDoc × σ
  Delete : σ → String → String → String → String → Except Error String × σ
  DefineIndexRaw : σ → String → String → Map → Except Error Map × σ
  CreateDB : σ → String → String → Option Error × σ
  IsNoDatabaseError : Option Error → Bool
  FindDocsRaw : σ → String → String → Map → Except Error (List JSONDoc) × σ
  ValidChangesMode : String → Except Error String
  ValidChangesStyle : String → Except Error String
  GetChanges : σ → String → ChangesRequest → (Option Map × Option Error) × σ

/-- The value a handler passes to `c.JSON`. -/
inductive Payload
  | doc (out : JSONDoc)
  | written (ok : Bool) (id rev type : String) (data : JSONDoc)
  | deleted (ok : Bool) (id rev type : String) (deleted : Bool)
  | index (result : Map)
  | docs (results : List JSONDoc)
  | changes (results : Option Map)
  deriving DecidableEq, Repr

/-- What a handler does for its caller: it writes a JSON response with `c.JSON(status,
payload)` and returns nil, or it returns an error, or it panics. -/
inductive Result
  | json (status : Nat) (payload : Payload)
  | error (err : Error)
  | panic
  deriving DecidableEq, Repr

/-- The run of a handler: its result, the state of the database after it and the store
operations it made, in order. -/
structure Run (σ : Type) where
  result : Result
  store : σ
  calls : List Call

/-- A handler, Go's `echo.HandlerFunc`, run from a state of the database. -/
abbrev HandlerFunc (σ : Type) := Context → σ → Run σ

/-- The check in front of every route: `func validDoctype(next echo.HandlerFunc)`. -/
def validDoctype {σ : Type} (next : HandlerFunc σ) : HandlerFunc σ := fun c s =>
  let doctype := c.Param "doctype"
  if doctype = "" then
    ⟨.error (NewError StatusBadRequest ("Invalid doctype '" ++ doctype ++ "'")), s, []⟩
  else
    next (c.Set "doctype" doctype) s

/-- GetDoc get a doc by its type and id. The assertion `c.Get("doctype").(string)` panics
when the value was not set. -/
def getDoc {σ : Type} (env : Env σ) : HandlerFunc σ := fun c s =>
  let inst := GetInstance c
  match c.Get "doctype" with
  | none => ⟨.panic, s, []⟩
  | some doctype =>
    let docid := c.Param "docid"
    match env.CheckReadable c doctype with
    | some err => ⟨.error err, s, []⟩
    | none =>
      match env.GetDoc s inst doctype docid with
      | (.error err, s1) => ⟨.error err, s1, [.GetDoc inst doctype docid]⟩
      | (.ok out, s1) =>
        let out := { out with Type_ := doctype }
        ⟨.json StatusOK (.doc out), s1, [.GetDoc inst doctype docid]⟩

/-- The common end of `createDoc` and `updateDoc`, after the store operation `call`
returned `r`: the error of the store is returned as it is, and otherwise the response
echoes `ok`, `id`, `rev`, `type` and the document as the store left it. -/
def written {σ : Type} (status : Nat) (call : Call) (r : Except Error JSONDoc × σ) : Run σ :=
  match r with
  | (.error err, s1) => ⟨.error err, s1, [call]⟩
  | (.ok doc, s1) => ⟨.json status (.written true doc.ID doc.Rev doc.DocType doc), s1, [call]⟩

/-- CreateDoc create doc from the json passed as body. -/
def createDoc {σ : Type} (env : Env σ) : HandlerFunc σ := fun c s =>
  match c.Get "doctype" with
  | none => ⟨.panic, s, []⟩
  | some doctype =>
    let inst := GetInstance c
    match c.Bind with
    | .error err => ⟨.error (NewError StatusBadRequest err.message), s, []⟩
    | .ok m =>
      let doc : JSONDoc := { M := m, Type_ := doctype }
      match env.CheckWritable c doctype with
      | some err => ⟨.error err, s, []⟩
      | none =>
        if doc.ID ≠ "" then
          ⟨.error (NewError StatusBadRequest "Cannot create a document with _id"), s, []⟩
        else
          written StatusCreated (.CreateDoc inst doc) (env.CreateDoc s inst doc)

/-- The handler `func updateDoc(c echo.Context) error`. -/
def updateDoc {σ : Type} (env : Env σ) : HandlerFunc σ := fun c s =>
  let inst := GetInstance c
  match c.Bind with
  | .error err => ⟨.error (NewError StatusBadRequest err.message), s, []⟩
  | .ok m =>
    let doc : JSONDoc := { M := m, Type_ := c.Param "doctype" }
    match env.CheckWritable c doc.Type_ with
    | some err => ⟨.error err, s, []⟩
    | none =>
      if (doc.ID == "") != (doc.Rev == "") then
        ⟨.error (NewError StatusBadRequest
          "You must either provide an _id and _rev in document (update) or neither (create with  fixed id)."),
          s, []⟩
      else if doc.ID ≠ "" ∧ doc.ID ≠ c.Param "docid" then
        ⟨.error (NewError StatusBadRequest "document _id doesnt match url"), s, []⟩
      else if doc.ID = "" then
        let doc := doc.SetID (c.Param "docid")
        written StatusOK (.CreateNamedDoc inst doc) (env.CreateNamedDoc s inst doc)
      else
        written StatusOK (.UpdateDoc inst doc) (env.UpdateDoc s inst doc)

/-- The revision `deleteDoc` settles on from the `If-Match` header and the `rev` query
parameter: the chain of `if`/`else if` at the head of the handler, an error when it
returns. -/
def deleteRev (revHeader revQuery : String) : Except Error String :=
  if revHeader ≠ "" ∧ revQuery ≠ "" ∧ revQuery ≠ revHeader then
    .error (NewError StatusBadRequest "If-Match Header and rev query parameters mismatch")
  else if revHeader ≠ "" then
    .ok revHeader
  else if revQuery ≠ "" then
    .ok revQuery
  else
    .error (NewError StatusBadRequest "delete without revision")

/-- The handler `func deleteDoc(c echo.Context) error`. -/
def deleteDoc {σ : Type} (env : Env σ) : HandlerFunc σ := fun c s =>
  let inst := GetInstance c
  match c.Get "doctype" with
  | none => ⟨.panic, s, []⟩
  | some doctype =>
    let docid := c.Param "docid"
    let revHeader := c.HeaderGet "If-Match"
    let revQuery := c.QueryParam "rev"
    match deleteRev revHeader revQuery with
    | .error err => ⟨.error err, s, []⟩
    | .ok rev =>
      match env.CheckWritable c doctype with
      | some err => ⟨.error err, s, []⟩
      | none =>
        match env.Delete s inst doctype docid rev with
        | (.error err, s1) => ⟨.error err, s1, [.Delete inst doctype docid rev]⟩
        | (.ok tombrev, s1) =>
          ⟨.json StatusOK (.deleted true docid tombrev doctype true), s1,
            [.Delete inst doctype docid rev]⟩

/-- The handler `func defineIndex(c echo.Context) error`. -/
def defineIndex {σ : Type} (env : Env σ) : HandlerFunc σ := fun c s =>
  let inst := GetInstance c
  match c.Get "doctype" with
  | none => ⟨.panic, s, []⟩
  | some doctype =>
    match c.Bind with
    | .error err => ⟨.error (NewError StatusBadRequest err.message), s, []⟩
    | .ok definitionRequest =>
      match env.CheckWritable c doctype with
      | some err => ⟨.error err, s, []⟩
      | none =>
        let define : Call := .DefineIndexRaw inst doctype definitionRequest
        let (r1, s1) := env.DefineIndexRaw s inst doctype definitionRequest
        let err1 : Option Error := match r1 with
          | .error err => some err
          | .ok _ => none
        if env.IsNoDatabaseError err1 then
          match env.CreateDB s1 inst doctype with
          | (some err, s2) => ⟨.error err, s2, [define, .CreateDB inst doctype]⟩
          | (none, s2) =>
            match env.DefineIndexRaw s2 inst doctype definitionRequest with
            | (.error err, s3) => ⟨.error err, s3, [define, .CreateDB inst doctype, define]⟩
            | (.ok result, s3) =>
              ⟨.json StatusOK (.index result), s3, [define, .CreateDB inst doctype, define]⟩
        else
          match r1 with
          | .error err => ⟨.error err, s1, [define]⟩
          | .ok result => ⟨.json StatusOK (.index result), s1, [define]⟩

/-- The handler `func findDocuments(c echo.Context) error`. -/
def findDocuments {σ : Type} (env : Env σ) : HandlerFunc σ := fun c s =>
  let inst := GetInstance c
  match c.Get "doctype" with
  | none => ⟨.panic, s, []⟩
  | some doctype =>
    match c.Bind with
    | .error err => ⟨.error (NewError StatusBadRequest err.message), s, []⟩
    | .ok findRequest =>
      match env.CheckReadable c doctype with
      | some err => ⟨.error err, s, []⟩
      | none =>
        match env.FindDocsRaw s inst doctype findRequest with
        | (.error err, s1) => ⟨.error err, s1, [.FindDocsRaw inst doctype findRequest]⟩
        | (.ok results, s1) =>
          ⟨.json StatusOK (.docs results), s1, [.FindDocsRaw inst doctype findRequest]⟩

/-- The allow-list `var allowedChangesParams`: the keys mapped to `true`. -/
def allowedChangesParams (key : String) : Bool :=
  key = "feed" || key = "style" || key = "since" || key = "limit"

/-- The value of a string of decimal digits, `none` when the string is empty or holds
another character. -/
def digitsValue (ds : List Char) : Option Nat :=
  if ds = [] ∨ ¬ ds.all Char.isDigit then none
  else some (ds.foldl (fun acc d => 10 * acc + (d.toNat - 48)) 0)

/-- Go's `strconv.Atoi` with a 64-bit `int`: an optional sign and decimal digits, within
the range of the type; the error carries the message of `err.Error()`. -/
def Atoi (s : String) : Except String Int :=
  let signed : Bool × List Char := match s.data with
    | '+' :: rest => (false, rest)
    | '-' :: rest => (true, rest)
    | rest => (false, rest)
  match digitsValue signed.2 with
  | none => .error ("strconv.Atoi: parsing \"" ++ s ++ "\": invalid syntax")
  | some n =>
    let v : Int := if signed.1 then -(n : Int) else (n : Int)
    if v < -(2 : Int) ^ 63 ∨ (2 : Int) ^ 63 - 1 < v then
      .error ("strconv.Atoi: parsing \"" ++ s ++ "\": value out of range")
    else .ok v

/-- The handler `func changesFeed(c echo.Context) error`. The first loop returns at the
first key it visits that is not allowed. The error of `couchdb.GetChanges` is assigned
and not read: the handler ends with `c.JSON(http.StatusOK, results)`. -/
def changesFeed {σ : Type} (env : Env σ) : HandlerFunc σ := fun c s =>
  let inst := GetInstance c
  -- Drop a clear error for parameters not supported by stack
  match (c.query.map Prod.fst).find? (fun key => !allowedChangesParams key) with
  | some key =>
    ⟨.error (NewError StatusBadRequest ("Unsuported query parameter '" ++ key ++ "'")), s, []⟩
  | none =>
    match env.ValidChangesMode (c.QueryParam "feed") with
    | .error err => ⟨.error (NewError StatusBadRequest err.message), s, []⟩
    | .ok feed =>
      match env.ValidChangesStyle (c.QueryParam "style") with
      | .error err => ⟨.error (NewError StatusBadRequest err.message), s, []⟩
      | .ok feedStyle =>
        let limitString := c.QueryParam "limit"
        let limit : Except String Int := if limitString ≠ "" then Atoi limitString else .ok 0
        match limit with
        | .error msg =>
          ⟨.error (NewError StatusBadRequest ("Invalid limit value '" ++ msg ++ "'")), s, []⟩
        | .ok limit =>
          match c.Get "doctype" with
          | none => ⟨.panic, s, []⟩
          | some doctype =>
            let request : ChangesRequest :=
              { DocType := doctype, Feed := feed, Style := feedStyle,
                Since := c.QueryParam "since", Limit := limit }
            let (r, s1) := env.GetChanges s inst request
            ⟨.json StatusOK (.changes r.1), s1, [.GetChanges inst request]⟩

/-! ### A store stub and requests to run the handlers on -/

/-- A store stub whose state counts the operations made on it. Every operation succeeds,
except `DefineIndexRaw` on a database that no operation has touched yet, which reports
that the database does not exist. The permission checks are the ones modelled from the
spec. -/
def stubEnv : Env Nat where
  CheckReadable := CheckReadable
  CheckWritable := CheckWritable
  GetDoc := fun n _ doctype docid =>
    (.ok { M := [("_id", .string docid), ("_rev", .string "1-a")], Type_ := doctype }, n + 1)
  CreateDoc := fun n _ doc =>
    (.ok { doc with M := ("_id", .string "generated") :: ("_rev", .string "1-a") :: doc.M },
      n + 1)
  CreateNamedDoc := fun n _ doc => (.ok { doc with M := ("_rev", .string "1-a") :: doc.M }, n + 1)
  UpdateDoc := fun n _ doc =>
    (.ok { doc with M := ("_rev", .string "2-b") :: doc.M.filter (fun kv => kv.1 ≠ "_rev") },
      n + 1)
  Delete := fun n _ _ _ _ => (.ok "2-tombstone", n + 1)
  DefineIndexRaw := fun n _ _ _ =>
    if n = 0 then (.error (.foreign 404 "no_db_file"), n + 1)
    else (.ok [("result", .string "created")], n + 1)
  CreateDB := fun n _ _ => (none, n + 1)
  IsNoDatabaseError := fun err => err == some (.foreign 404 "no_db_file")
  FindDocsRaw := fun n _ _ _ => (.ok [], n + 1)
  ValidChangesMode := fun feed =>
    if feed = "" ∨ feed = "normal" ∨ feed = "longpoll" ∨ feed = "continuous" then .ok feed
    else .error (.foreign 400 "Unsuported feed value")
  ValidChangesStyle := fun style =>
    if style = "" ∨ style = "main_only" ∨ style = "all_docs" then .ok style
    else .error (.foreign 400 "Unsuported style value")
  GetChanges := fun n _ _ => ((some [("last_seq", .string "0")], none), n + 1)

/-- A request on the document `42` of the doctype `io.cozy.events`, past `validDoctype`,
with the given method, query, header and body, by a caller who is granted `grant` on
every doctype. -/
def request (method : String) (query : List (String × List String))
    (header : List (String × String)) (body : Map) (grant : VerbSet) : Context where
  method := method
  params := [("doctype", "io.cozy.events"), ("docid", "42")]
  query := query
  header := header
  body := .ok body
  values := [("doctype", "io.cozy.events")]
  inst := "cozy.example.net"
  grants := fun _ => grant

/-- A delete with a revision in `If-Match`, by a caller granted `PATCH` only: neither the
read check nor the write check passes. -/
def deniedDelete : Context :=
  request "DELETE" [] [("If-Match", "1-a")] [] (Verbs [PATCH])

/-- A delete with no revision at all, by a caller granted `GET` only. -/
def deniedDeleteWithoutRevision : Context :=
  request "DELETE" [] [] [] (Verbs [GET])

/-- A changes-feed read with `limit=10`, by a caller granted `POST` only. -/
def deniedChanges : Context :=
  request "GET" [("limit", ["10"])] [] [] (Verbs [POST])

/-- A create whose body carries the id `abc`, by a caller granted every verb. -/
def createWithID : Context :=
  request "POST" [] [] [("_id", .string "abc")] ∅

/-- A create whose body carries the id `abc`, by a caller granted `GET` only. -/
def deniedCreateWithID : Context :=
  request "POST" [] [] [("_id", .string "abc")] (Verbs [GET])

/-- A store stub like `stubEnv` whose `GetChanges` fails: it returns no response and an
error of the store. -/
def failingChangesEnv : Env Nat :=
  { stubEnv with
    GetChanges := fun n _ _ => ((none, some (.foreign 503 "service_unavailable")), n + 1) }

/-- Whether `s` is a decimal integer: an optional sign followed by one decimal digit or
more. -/
def isDecimalInteger (s : String) : Bool :=
  let digits : List Char := match s.data with
    | '+' :: rest => rest
    | '-' :: rest => rest
    | rest => rest
  !digits.isEmpty && digits.all Char.isDigit

/-- A replace whose body carries an id and no revision, by a caller granted every verb. -/
def upsertWithIDOnly : Context :=
  request "PUT" [] [] [("_id", .string "42")] ∅

/-- A replace whose body carries neither id nor revision, by a caller granted every verb. -/
def upsertWithoutID : Context :=
  request "PUT" [] [] [("name", .string "party")] ∅

/-- A replace whose body carries the id of the URL and a revision, by a caller granted
every verb. -/
def upsertWithIDAndRev : Context :=
  request "PUT" [] [] [("_id", .string "42"), ("_rev", .string "1-a")] ∅

/-- A delete with the revision `r1` in both `If-Match` and the `rev` query parameter, by a
caller granted every verb. -/
def deleteWithBothRevisions : Context :=
  request "DELETE" [("rev", ["r1"])] [("If-Match", "r1")] [] ∅

/-- A delete with `If-Match: r1` and `rev=r2`, by a caller granted every verb. -/
def deleteWithMismatch : Context :=
  request "DELETE" [("rev", ["r2"])] [("If-Match", "r1")] [] ∅

/-- A changes-feed read with the query `since=3&foo=bar`. -/
def changesWithUnknownParam : Context :=
  request "GET" [("since", ["3"]), ("foo", ["bar"])] [] [] ∅

/-- A changes-feed read with the query `limit=abc`. -/
def changesWithBadLimit : Context :=
  request "GET" [("limit", ["abc"])] [] [] ∅

/-- A changes-feed read with the query `limit=-1`. -/
def changesWithNegativeLimit : Context :=
  request "GET" [("limit", ["-1"])] [] [] ∅

/-- A changes-feed read with the query `since=3`. -/
def changesSince : Context :=
  request "GET" [("since", ["3"])] [] [] ∅

/-- An index definition on the field `name`, by a caller granted every verb. -/
def defineNameIndex : Context :=
  request "POST" [] [] [("index", .raw "\x7b\"fields\":[\"name\"]\x7d")] ∅

/-- A handler that only records that it ran: it answers with the doctype it finds
recorded in the context and makes one `GetDoc` call. -/
def echoDoctype : HandlerFunc Nat := fun c s =>
  ⟨.json StatusOK (.doc { M := [], Type_ := (c.Get "doctype").getD "" }), s + 1,
    [.GetDoc c.inst ((c.Get "doctype").getD "") ""]⟩

/-- A request that has not been through `validDoctype` yet: nothing is recorded in the
context. -/
def rawRequest (doctype : String) : Context where
  method := "GET"
  params := [("doctype", doctype), ("docid", "42")]
  query := []
  header := []
  body := .ok []
  values := []
  inst := "cozy.example.net"
  grants := fun _ => ∅

end data

/-! ## Properties of the verb sets -/

namespace permissions

/-- The set `Verbs` builds holds exactly the verbs of the list. -/
theorem Verbs_eq_toFinset (l : List Verb) : Verbs l = l.toFinset := by
  unfold Verbs
  suffices h : ∀ acc : VerbSet, l.foldl (fun vs v => insert v vs) acc = acc ∪ l.toFinset by
    simpa using h ∅
  induction l with
  | nil => intro acc; simp
  | cons a t ih =>
    intro acc
    simp only [List.foldl_cons, ih, List.toFinset_cons]
    ext x
    simp only [Finset.mem_union, Finset.mem_insert]
    tauto

/-- Membership in the set `Verbs` builds is membership in the list. -/
theorem mem_Verbs (l : List Verb) (v : Verb) : v ∈ Verbs l ↔ v ∈ l := by
  rw [Verbs_eq_toFinset, List.mem_toFinset]

/-- The loop of `strings.Split` always yields a piece. -/
theorem splitGo_ne_nil (sep : List Char) :
    ∀ (s : List Char) (skip : Nat) (cur : List Char), splitGo sep skip s cur ≠ [] := by
  intro s
  induction s with
  | nil => intro skip cur; simp [splitGo]
  | cons c cs ih =>
    intro skip cur
    cases skip with
    | zero =>
      unfold splitGo
      split
      · simp
      · exact ih 0 (c :: cur)
    | succ k =>
      unfold splitGo
      exact ih k cur

/-- The pieces `strings.Split` returns are never an empty list. -/
theorem Split_ne_nil (s sep : String) : Split s sep ≠ [] := by
  unfold Split
  intro h
  exact splitGo_ne_nil sep.data s.data 0 [] (List.map_eq_nil_iff.mp h)

/-- On a token other than `"ALL"`, `VerbSplit` is `Verbs` of the pieces. -/
theorem VerbSplit_of_ne (t : String) (h : t ≠ allVerbs) :
    VerbSplit t = Verbs (Split t verbSep) := by
  unfold VerbSplit Verbs
  rw [if_neg h]

theorem powerset_roundTrips :
    ∀ S ∈ (Verbs allVerbsOrder).powerset, S ≠ ∅ → S ≠ Verbs allVerbsOrder →
      roundTrips S = true := by
  decide

theorem powerset_canonicalJoin :
    ∀ S ∈ (Verbs allVerbsOrder).powerset, S ≠ ∅ → S ≠ Verbs allVerbsOrder →
      VerbSet.String S = some (canonicalJoin S) := by
  decide

/-- A list of defined verbs that is not empty and misses a defined verb builds a
non-empty proper subset of the defined verbs. -/
theorem Verbs_proper (l : List Verb) (hdef : ∀ v ∈ l, v ∈ allVerbsOrder) (hne : l ≠ [])
    (hmiss : ∃ v ∈ allVerbsOrder, v ∉ l) :
    Verbs l ∈ (Verbs allVerbsOrder).powerset ∧ Verbs l ≠ ∅ ∧ Verbs l ≠ Verbs allVerbsOrder := by
  refine ⟨?_, ?_, ?_⟩
  · rw [Finset.mem_powerset]
    intro v hv
    rw [mem_Verbs] at hv ⊢
    exact hdef v hv
  · obtain ⟨a, t, rfl⟩ := List.exists_cons_of_ne_nil hne
    intro h
    have : a ∈ Verbs (a :: t) := (mem_Verbs _ _).mpr (List.mem_cons_self a t)
    rw [h] at this
    exact absurd this (Finset.not_mem_empty a)
  · obtain ⟨v, hv, hvl⟩ := hmiss
    intro h
    have : v ∈ Verbs l := by rw [h]; exact (mem_Verbs _ _).mpr hv
    exact hvl ((mem_Verbs _ _).mp this)

/-- A set contains a verb exactly when it is empty or holds the verb. -/
theorem Contains_iff (vs : VerbSet) (v : Verb) :
    VerbSet.Contains vs v = true ↔ vs = ∅ ∨ v ∈ vs := by
  unfold VerbSet.Contains
  by_cases h : vs.card = 0
  · simp [h, Finset.card_eq_zero.mp h]
  · have hne : vs ≠ ∅ := fun he => h (by simp [he])
    simp [h, hne]

/-- C1: for every VerbSet `vs` and every Verb `v`, `vs.Contains(v)` is true if and only
if `vs` is empty or `v` is a member of `vs`; in particular `Verbs()`, built from no verb,
is empty and contains every verb. -/
theorem C1_Contains_iff_empty_or_member (vs : VerbSet) (v : Verb) :
    (VerbSet.Contains vs v = true ↔ vs = ∅ ∨ v ∈ vs) ∧
      Verbs [] = ∅ ∧ VerbSet.Contains (Verbs []) v = true :=
  ⟨Contains_iff vs v, rfl, (Contains_iff (Verbs []) v).mpr (Or.inl rfl)⟩

/-- C3: the set built from all five verbs and the set built from no verb both serialize
as the literal `"ALL"`. -/
theorem C3_String_all_five_eq_ALL_eq_none :
    VerbSet.String (Verbs [GET, POST, PUT, PATCH, DELETE]) = some "ALL" ∧
      VerbSet.String (Verbs []) = some "ALL" ∧
      VerbSet.String (Verbs [GET, POST, PUT, PATCH, DELETE]) = VerbSet.String (Verbs []) := by
  decide

/-- C4: for every list of defined verbs that forms a non-empty proper subset `S` of the
five, `Verbs(S).String()` returns a string, `VerbSplit` of that string has exactly the
members of `S`, and serializing it again yields the same string. -/
theorem C4_String_VerbSplit_round_trip (l : List Verb) (hdef : ∀ v ∈ l, v ∈ allVerbsOrder)
    (hne : l ≠ []) (hmiss : ∃ v ∈ allVerbsOrder, v ∉ l) :
    ∃ str, VerbSet.String (Verbs l) = some str ∧
      (∀ v, v ∈ VerbSplit str ↔ v ∈ l) ∧
      VerbSet.String (VerbSplit str) = some str := by
  obtain ⟨hp, h0, h5⟩ := Verbs_proper l hdef hne hmiss
  have h := powerset_roundTrips (Verbs l) hp h0 h5
  unfold roundTrips at h
  cases hs : VerbSet.String (Verbs l) with
  | none => rw [hs] at h; simp at h
  | some str =>
    rw [hs] at h
    simp only [Bool.and_eq_true, decide_eq_true_eq] at h
    refine ⟨str, rfl, ?_, h.2⟩
    intro v
    rw [h.1, mem_Verbs]

/-- The instance of C4 at the list `PUT, GET, PUT`. -/
theorem C4_String_VerbSplit_round_trip_witness :
    (∀ v ∈ [PUT, GET, PUT], v ∈ allVerbsOrder) ∧ [PUT, GET, PUT] ≠ [] ∧
      (∃ v ∈ allVerbsOrder, v ∉ [PUT, GET, PUT]) ∧
      ∃ str, VerbSet.String (Verbs [PUT, GET, PUT]) = some str ∧
        (∀ v, v ∈ VerbSplit str ↔ v ∈ [PUT, GET, PUT]) ∧
        VerbSet.String (VerbSplit str) = some str :=
  ⟨by decide, by decide, by decide,
    C4_String_VerbSplit_round_trip [PUT, GET, PUT] (by decide) (by decide) (by decide)⟩


/-- C5: decoding the JSON array written for the set holding only `GET` into a fresh set
succeeds and leaves the empty set, not the set holding `GET`: the parsed list is not
stored. Whatever the decoder and the text, a fresh receiver is left empty. -/
theorem C5_UnmarshalJSON_drops_parsed_list :
    VerbSet.MarshalJSON (Verbs [GET]) = ("[\"GET\"]", none) ∧
      jsonUnmarshalStrings "[\"GET\"]" = .ok ["GET"] ∧
      VerbSet.UnmarshalJSON jsonUnmarshalStrings ∅ "[\"GET\"]" = (none, ∅) ∧
      GET ∈ Verbs [GET] ∧
      GET ∉ (VerbSet.UnmarshalJSON jsonUnmarshalStrings ∅ "[\"GET\"]").2 ∧
      ∀ (jsonUnmarshal : String → Except String (List String)) (b : String),
        (VerbSet.UnmarshalJSON jsonUnmarshal ∅ b).2 = ∅ := by
  refine ⟨by decide, rfl, by decide, by decide, by decide, ?_⟩
  intro dec b
  unfold VerbSet.UnmarshalJSON
  cases dec b <;> simp

/-- The serialization of a set is `"ALL"` exactly when the set has no member or five. -/
theorem String_eq_ALL_iff_card (vs : VerbSet) :
    VerbSet.String vs = some "ALL" ↔ vs.card = 0 ∨ vs.card = 5 := by
  unfold VerbSet.String
  by_cases h : vs.card = 0 ∨ vs.card = allVerbsLength
  · rw [if_pos h]
    exact ⟨fun _ => h, fun _ => rfl⟩
  · rw [if_neg h]
    constructor
    · intro H
      exfalso
      revert H
      simp only [allVerbsOrder, List.foldl]
      by_cases h1 : GET ∈ vs <;> by_cases h2 : POST ∈ vs <;> by_cases h3 : PUT ∈ vs <;>
        by_cases h4 : PATCH ∈ vs <;> by_cases h5 : DELETE ∈ vs <;>
        simp only [h1, h2, h3, h4, h5, if_true, if_false] <;> decide
    · intro H
      exact absurd H h

/-- C6, as the code has it: for every VerbSet `vs`, opaque tokens included, `vs.String()`
returns `"ALL"` if and only if `vs` has no member or exactly five members; when every
member of `vs` is a defined verb, that is: `vs` is empty or holds each of the five. -/
theorem C6_String_ALL_iff_len_zero_or_five (vs : VerbSet) :
    (VerbSet.String vs = some "ALL" ↔ vs.card = 0 ∨ vs.card = allVerbsLength) ∧
      ((∀ v ∈ vs, v ∈ allVerbsOrder) →
        (VerbSet.String vs = some "ALL" ↔ vs = ∅ ∨ ∀ v ∈ allVerbsOrder, v ∈ vs)) := by
  refine ⟨String_eq_ALL_iff_card vs, ?_⟩
  intro hdef
  rw [String_eq_ALL_iff_card, Finset.card_eq_zero]
  have hsub : vs ⊆ Verbs allVerbsOrder := fun v hv => (mem_Verbs _ _).mpr (hdef v hv)
  have hcard : (Verbs allVerbsOrder).card = 5 := by decide
  constructor
  · rintro (h | h)
    · exact Or.inl h
    · right
      intro v hv
      have heq : vs = Verbs allVerbsOrder :=
        Finset.eq_of_subset_of_card_le hsub (by rw [hcard, h])
      rw [heq]
      exact (mem_Verbs _ _).mpr hv
  · rintro (h | h)
    · exact Or.inl h
    · right
      have heq : vs = Verbs allVerbsOrder :=
        Finset.Subset.antisymm hsub (fun v hv => h v ((mem_Verbs _ _).mp hv))
      rw [heq, hcard]

/-- The instance of C6 at the set holding `GET` and `POST`. -/
theorem C6_String_ALL_iff_len_zero_or_five_witness :
    (∀ v ∈ Verbs [GET, POST], v ∈ allVerbsOrder) ∧
      (VerbSet.String (Verbs [GET, POST]) = some "ALL" ↔
        Verbs [GET, POST] = ∅ ∨ ∀ v ∈ allVerbsOrder, v ∈ Verbs [GET, POST]) :=
  ⟨by decide, (C6_String_ALL_iff_len_zero_or_five (Verbs [GET, POST])).2 (by decide)⟩

/-- C6 fails as stated: a set of five opaque tokens is not empty and holds no defined
verb, yet serializes as `"ALL"`; a set holding the five defined verbs and a sixth token
holds every defined verb, yet does not serialize as `"ALL"`. -/
theorem C6_counterexample_five_opaque_tokens :
    (VerbSet.String (VerbSplit "A,B,C,D,E") = some "ALL" ∧
      VerbSplit "A,B,C,D,E" ≠ ∅ ∧ ¬ (∀ v ∈ allVerbsOrder, v ∈ VerbSplit "A,B,C,D,E")) ∧
    ((∀ v ∈ allVerbsOrder, v ∈ VerbSplit "GET,POST,PUT,PATCH,DELETE,FOO") ∧
      VerbSet.String (VerbSplit "GET,POST,PUT,PATCH,DELETE,FOO") =
        some "GET,POST,PUT,PATCH,DELETE") := by
  decide

/-- C7, as the code has it: `VerbSplit("ALL")` is the set `ALL`, whose members are exactly
the five defined verbs; `Contains(v)` is true exactly for the defined verbs, and
`String()` is `"ALL"`. -/
theorem C7_VerbSplit_ALL_is_five_verbs (v : Verb) :
    VerbSplit "ALL" = ALL ∧ (VerbSplit "ALL").card = 5 ∧
      (v ∈ VerbSplit "ALL" ↔ v ∈ allVerbsOrder) ∧
      (VerbSet.Contains (VerbSplit "ALL") v = true ↔ v ∈ allVerbsOrder) ∧
      VerbSet.String (VerbSplit "ALL") = some "ALL" := by
  have hsplit : VerbSplit "ALL" = Verbs allVerbsOrder := by decide
  have hmem : v ∈ VerbSplit "ALL" ↔ v ∈ allVerbsOrder := by rw [hsplit, mem_Verbs]
  refine ⟨by decide, by decide, hmem, ?_, by decide⟩
  rw [Contains_iff, hmem]
  constructor
  · rintro (h | h)
    · exact absurd h (by decide)
    · exact h
  · exact Or.inr

/-- C7 fails as stated: the set `VerbSplit("ALL")` returns has five members, it is not the
empty set, and it does not contain the verb value `"FOO"`. -/
theorem C7_counterexample_VerbSplit_ALL_not_empty :
    (VerbSplit "ALL").card = 5 ∧ VerbSplit "ALL" ≠ ∅ ∧
      VerbSet.Contains (VerbSplit "ALL") "FOO" = false := by
  decide

/-- C8: for every token `t` other than `"ALL"` and every Verb `v`, `VerbSplit(t)` contains
`v` if and only if `v` is one of the pieces of `t` split on `","`; hence when no piece of
`t` is a defined verb, `Contains` is false for each of the five defined verbs. -/
theorem C8_VerbSplit_Contains_iff_piece (t : String) (v : Verb) (h : t ≠ allVerbs) :
    (VerbSet.Contains (VerbSplit t) v = true ↔ v ∈ Split t ",") ∧
      ((∀ d ∈ allVerbsOrder, d ∉ Split t ",") → v ∈ allVerbsOrder →
        VerbSet.Contains (VerbSplit t) v = false) := by
  have hiff : VerbSet.Contains (VerbSplit t) v = true ↔ v ∈ Split t "," := by
    rw [Contains_iff, VerbSplit_of_ne t h]
    have hsep : verbSep = "," := rfl
    rw [hsep]
    constructor
    · rintro (he | hm)
      · exfalso
        obtain ⟨a, r, har⟩ := List.exists_cons_of_ne_nil (Split_ne_nil t ",")
        have : a ∈ Verbs (Split t ",") := by
          rw [mem_Verbs, har]
          exact List.mem_cons_self a r
        rw [he] at this
        exact absurd this (Finset.not_mem_empty a)
      · exact (mem_Verbs _ _).mp hm
    · intro hm
      exact Or.inr ((mem_Verbs _ _).mpr hm)
  refine ⟨hiff, ?_⟩
  intro hnone hv
  cases hc : VerbSet.Contains (VerbSplit t) v with
  | false => rfl
  | true => exact absurd (hiff.mp hc) (hnone v hv)

/-- The instance of C8 at the token `"FOO,get"` and the verb `GET`. -/
theorem C8_VerbSplit_Contains_iff_piece_witness :
    "FOO,get" ≠ allVerbs ∧ (∀ d ∈ allVerbsOrder, d ∉ Split "FOO,get" ",") ∧
      GET ∈ allVerbsOrder ∧
      (VerbSet.Contains (VerbSplit "FOO,get") GET = true ↔ GET ∈ Split "FOO,get" ",") ∧
      VerbSet.Contains (VerbSplit "FOO,get") GET = false :=
  ⟨by decide, by decide, by decide,
    (C8_VerbSplit_Contains_iff_piece "FOO,get" GET (by decide)).1,
    (C8_VerbSplit_Contains_iff_piece "FOO,get" GET (by decide)).2 (by decide) (by decide)⟩

/-- C9: for every list `l` of defined verbs whose elements form a non-empty proper subset
of the five, `Verbs(l...).String()` is the members listed in the canonical order GET,
POST, PUT, PATCH, DELETE and joined by `","`, with no leading or trailing separator; a
list with the same elements, in any order and multiplicity, gives the same string. -/
theorem C9_String_canonical_order (l : List Verb) (hdef : ∀ v ∈ l, v ∈ allVerbsOrder)
    (hne : l ≠ []) (hmiss : ∃ v ∈ allVerbsOrder, v ∉ l) :
    VerbSet.String (Verbs l) =
        some (String.intercalate "," (allVerbsOrder.filter (fun v => v ∈ l))) ∧
      ∀ l2 : List Verb, (∀ v, v ∈ l2 ↔ v ∈ l) →
        VerbSet.String (Verbs l2) = VerbSet.String (Verbs l) := by
  obtain ⟨hp, h0, h5⟩ := Verbs_proper l hdef hne hmiss
  constructor
  · rw [powerset_canonicalJoin (Verbs l) hp h0 h5]
    unfold canonicalJoin
    have hf : (allVerbsOrder.filter (fun v => v ∈ Verbs l)) =
        allVerbsOrder.filter (fun v => v ∈ l) := by
      apply List.filter_congr
      intro v _
      simp only [mem_Verbs]
    rw [hf]
    rfl
  · intro l2 hl2
    have : Verbs l2 = Verbs l := by
      ext v
      rw [mem_Verbs, mem_Verbs]
      exact hl2 v
    rw [this]

/-- The instance of C9 at the list `DELETE, GET, DELETE`, against the list `GET, DELETE`. -/
theorem C9_String_canonical_order_witness :
    (∀ v ∈ [DELETE, GET, DELETE], v ∈ allVerbsOrder) ∧ [DELETE, GET, DELETE] ≠ [] ∧
      (∃ v ∈ allVerbsOrder, v ∉ [DELETE, GET, DELETE]) ∧
      VerbSet.String (Verbs [DELETE, GET, DELETE]) = some "GET,DELETE" ∧
      VerbSet.String (Verbs [GET, DELETE]) = VerbSet.String (Verbs [DELETE, GET, DELETE]) :=
  ⟨by decide, by decide, by decide,
    (C9_String_canonical_order [DELETE, GET, DELETE] (by decide) (by decide) (by decide)).1,
    (C9_String_canonical_order [DELETE, GET, DELETE] (by decide) (by decide) (by decide)).2
      [GET, DELETE] (by intro v; simp only [List.mem_cons, List.mem_singleton]; tauto)⟩

end permissions

/-! ## Properties of the handlers -/

namespace data

open permissions

/-- C2, as the code has it: for each of getDoc, findDocuments, createDoc, updateDoc,
deleteDoc and defineIndex, on a request past `validDoctype` whose permission check for
the addressed doctype fails, the handler makes no call to the store, leaves it as it
was, and returns an error: the error of the check, unless the body does not bind
(findDocuments, createDoc, updateDoc, defineIndex) or the revision of a delete is
missing or contradictory, which is rejected first, with the status 400. -/
theorem C2_denied_request_makes_no_store_call {σ : Type} (env : Env σ) (c : Context) (s : σ)
    (doctype : String) (hget : c.Get "doctype" = some doctype)
    (hparam : c.Param "doctype" = doctype) :
    (∀ e, env.CheckReadable c doctype = some e →
      getDoc env c s = ⟨.error e, s, []⟩ ∧
      findDocuments env c s =
        ⟨.error (match c.Bind with
          | .ok _ => e
          | .error b => NewError StatusBadRequest b.message), s, []⟩) ∧
    (∀ e, env.CheckWritable c doctype = some e →
      createDoc env c s =
        ⟨.error (match c.Bind with
          | .ok _ => e
          | .error b => NewError StatusBadRequest b.message), s, []⟩ ∧
      updateDoc env c s =
        ⟨.error (match c.Bind with
          | .ok _ => e
          | .error b => NewError StatusBadRequest b.message), s, []⟩ ∧
      defineIndex env c s =
        ⟨.error (match c.Bind with
          | .ok _ => e
          | .error b => NewError StatusBadRequest b.message), s, []⟩ ∧
      deleteDoc env c s =
        ⟨.error (match deleteRev (c.HeaderGet "If-Match") (c.QueryParam "rev") with
          | .ok _ => e
          | .error r => r), s, []⟩) := by
  constructor
  · intro e he
    constructor
    · simp only [getDoc, hget, he]
    · simp only [findDocuments, hget]
      cases c.Bind with
      | error b => rfl
      | ok m => simp only [he]
  · intro e he
    refine ⟨?_, ?_, ?_, ?_⟩
    · simp only [createDoc, hget]
      cases c.Bind with
      | error b => rfl
      | ok m => simp only [he]
    · simp only [updateDoc, hparam]
      cases c.Bind with
      | error b => rfl
      | ok m => simp only [he]
    · simp only [defineIndex, hget]
      cases c.Bind with
      | error b => rfl
      | ok m => simp only [he]
    · simp only [deleteDoc, hget]
      cases deleteRev (c.HeaderGet "If-Match") (c.QueryParam "rev") with
      | error r => rfl
      | ok rev => simp only [he]

/-- The instance of C2 at a delete by a caller granted `PATCH` only, on the store stub. -/
theorem C2_denied_request_makes_no_store_call_witness :
    deniedDelete.Get "doctype" = some "io.cozy.events" ∧
      deniedDelete.Param "doctype" = "io.cozy.events" ∧
      stubEnv.CheckReadable deniedDelete "io.cozy.events" = some Forbidden ∧
      stubEnv.CheckWritable deniedDelete "io.cozy.events" = some Forbidden ∧
      getDoc stubEnv deniedDelete 0 = ⟨.error Forbidden, 0, []⟩ ∧
      findDocuments stubEnv deniedDelete 0 = ⟨.error Forbidden, 0, []⟩ ∧
      createDoc stubEnv deniedDelete 0 = ⟨.error Forbidden, 0, []⟩ ∧
      updateDoc stubEnv deniedDelete 0 = ⟨.error Forbidden, 0, []⟩ ∧
      defineIndex stubEnv deniedDelete 0 = ⟨.error Forbidden, 0, []⟩ ∧
      deleteDoc stubEnv deniedDelete 0 = ⟨.error Forbidden, 0, []⟩ :=
  ⟨rfl, rfl, by decide, by decide,
    ((C2_denied_request_makes_no_store_call stubEnv deniedDelete 0 "io.cozy.events" rfl rfl).1
      Forbidden (by decide)).1,
    ((C2_denied_request_makes_no_store_call stubEnv deniedDelete 0 "io.cozy.events" rfl rfl).1
      Forbidden (by decide)).2,
    (C2_denied_request_makes_no_store_call stubEnv deniedDelete 0 "io.cozy.events" rfl rfl).2
      Forbidden (by decide)⟩

/-- C2 fails as stated. A delete that names no revision, by a caller whose permission
set does not contain DELETE, returns the status 400 error and not Forbidden. A
changes-feed read by a caller whose permission set does not contain GET is answered
with the status 200 after one call of `couchdb.GetChanges`. -/
theorem C2_counterexample_delete_and_changes :
    (CheckWritable deniedDeleteWithoutRevision "io.cozy.events" = some Forbidden ∧
      (deleteDoc stubEnv deniedDeleteWithoutRevision 0).result =
        .error (NewError StatusBadRequest "delete without revision") ∧
      (deleteDoc stubEnv deniedDeleteWithoutRevision 0).result ≠ .error Forbidden) ∧
    (CheckReadable deniedChanges "io.cozy.events" = some Forbidden ∧
      (changesFeed stubEnv deniedChanges 0).result =
        .json StatusOK (.changes (some [("last_seq", .string "0")])) ∧
      (changesFeed stubEnv deniedChanges 0).calls =
        [.GetChanges "cozy.example.net"
          { DocType := "io.cozy.events", Feed := "", Style := "", Since := "", Limit := 10 }] ∧
      (changesFeed stubEnv deniedChanges 0).store = 1) := by
  decide

/-- C10, as the code has it: for every create request whose bound body carries a
non-empty `_id`, `couchdb.CreateDoc` is never invoked, the store is left as it was, and
createDoc returns an error: the status 400 error when the permission check passes, and
the error of the permission check when it fails. -/
theorem C10_create_with_id_never_reaches_store {σ : Type} (env : Env σ) (c : Context) (s : σ)
    (doctype : String) (m : Map) (hget : c.Get "doctype" = some doctype)
    (hbind : c.Bind = .ok m) (hid : JSONDoc.ID { M := m, Type_ := doctype } ≠ "") :
    createDoc env c s =
      ⟨.error (match env.CheckWritable c doctype with
        | some e => e
        | none => NewError StatusBadRequest "Cannot create a document with _id"), s, []⟩ := by
  simp only [createDoc, hget, hbind]
  cases env.CheckWritable c doctype with
  | some e => rfl
  | none => simp only [hid, ne_eq, not_false_eq_true, if_true]

/-- The instance of C10 at a create with the id `abc` by a caller granted every verb. -/
theorem C10_create_with_id_never_reaches_store_witness :
    createWithID.Get "doctype" = some "io.cozy.events" ∧
      createWithID.Bind = .ok [("_id", .string "abc")] ∧
      JSONDoc.ID { M := [("_id", .string "abc")], Type_ := "io.cozy.events" } ≠ "" ∧
      createDoc stubEnv createWithID 0 =
        ⟨.error (NewError StatusBadRequest "Cannot create a document with _id"), 0, []⟩ :=
  ⟨rfl, rfl, by decide,
    C10_create_with_id_never_reaches_store stubEnv createWithID 0 "io.cozy.events"
      [("_id", .string "abc")] rfl rfl (by decide)⟩

/-- C10 fails as stated: a create whose body carries the id `abc`, by a caller whose
permission set does not contain POST, returns Forbidden, which has the status 403, and
not a status 400 error. -/
theorem C10_counterexample_denied_create_with_id :
    deniedCreateWithID.Bind = .ok [("_id", .string "abc")] ∧
      JSONDoc.ID { M := [("_id", .string "abc")], Type_ := "io.cozy.events" } = "abc" ∧
      (createDoc stubEnv deniedCreateWithID 0).result = .error (.foreign 403 "Forbidden") ∧
      ∀ detail, (createDoc stubEnv deniedCreateWithID 0).result ≠
        .error (NewError StatusBadRequest detail) := by
  refine ⟨rfl, by decide, by decide, ?_⟩
  intro detail h
  have hr : (createDoc stubEnv deniedCreateWithID 0).result = .error (.foreign 403 "Forbidden") := by
    decide
  rw [hr] at h
  cases h

end data

/-! ## Properties of the handlers: validation and routing to the store -/

namespace data

open permissions

/-- The common end of `createDoc` and `updateDoc` makes exactly the store call it is
given. -/
theorem written_calls {σ : Type} (status : Nat) (call : Call) (r : Except Error JSONDoc × σ) :
    (written status call r).calls = [call] := by
  obtain ⟨r, s1⟩ := r
  cases r <;> rfl

/-- The common end of `createDoc` and `updateDoc` leaves the store as the store call
left it. -/
theorem written_store {σ : Type} (status : Nat) (call : Call) (r : Except Error JSONDoc × σ) :
    (written status call r).store = r.2 := by
  obtain ⟨r, s1⟩ := r
  cases r <;> rfl

/-- The id of a document after `SetID(id)` is `id`. -/
theorem SetID_ID (doc : JSONDoc) (id : String) : (doc.SetID id).ID = id := by
  simp [JSONDoc.SetID, JSONDoc.ID, Map.str, List.lookup]

/-- The context after `c.Set(key, val)` returns `val` for `key`. -/
theorem Get_Set (c : Context) (key val : String) : (c.Set key val).Get key = some val := by
  simp [Context.Set, Context.Get, List.lookup]

/-- C11: for every authorized upsert request with body id `i`, body revision `r` and URL
id `u`, updateDoc returns a status 400 error without calling the store if and only if
exactly one of `i` and `r` is empty, or `i` is non-empty and differs from `u`. -/
theorem C11_updateDoc_rejects_iff {σ : Type} (env : Env σ) (c : Context) (s : σ) (m : Map)
    (i r u : String) (hbind : c.Bind = .ok m)
    (hauth : env.CheckWritable c (c.Param "doctype") = none)
    (hi : JSONDoc.ID { M := m, Type_ := c.Param "doctype" } = i)
    (hr : JSONDoc.Rev { M := m, Type_ := c.Param "doctype" } = r)
    (hu : c.Param "docid" = u) :
    ((updateDoc env c s).calls = [] ∧
        ∃ detail, (updateDoc env c s).result = .error (NewError StatusBadRequest detail)) ↔
      ((i = "" ∧ r ≠ "") ∨ (i ≠ "" ∧ r = "") ∨ (i ≠ "" ∧ i ≠ u)) := by
  simp only [updateDoc, hbind, hauth, hi, hr, hu]
  by_cases h1 : i = ""
  · by_cases h2 : r = ""
    · simp [h1, h2, written_calls]
    · simp [h1, h2]
  · by_cases h2 : r = ""
    · simp [h1, h2]
    · by_cases h3 : i = u
      · subst h3
        simp [h1, h2, written_calls]
      · simp [h1, h2, h3]

/-- The instance of C11 at a replace whose body carries the id `42` and no revision. -/
theorem C11_updateDoc_rejects_iff_witness :
    upsertWithIDOnly.Bind = .ok [("_id", .string "42")] ∧
      stubEnv.CheckWritable upsertWithIDOnly (upsertWithIDOnly.Param "doctype") = none ∧
      JSONDoc.ID { M := [("_id", .string "42")], Type_ := upsertWithIDOnly.Param "doctype" }
        = "42" ∧
      JSONDoc.Rev { M := [("_id", .string "42")], Type_ := upsertWithIDOnly.Param "doctype" }
        = "" ∧
      upsertWithIDOnly.Param "docid" = "42" ∧
      ((updateDoc stubEnv upsertWithIDOnly 0).calls = [] ∧
        ∃ detail, (updateDoc stubEnv upsertWithIDOnly 0).result =
          .error (NewError StatusBadRequest detail)) :=
  ⟨rfl, by decide, by decide, by decide, by decide,
    (C11_updateDoc_rejects_iff stubEnv upsertWithIDOnly 0 [("_id", .string "42")] "42" "" "42"
      rfl (by decide) (by decide) (by decide) (by decide)).mpr
      (Or.inr (Or.inl ⟨by decide, rfl⟩))⟩

/-- C12: for every authorized delete request with `If-Match` value `h` and `rev` query
value `q`: when both are empty, or both are given and differ, deleteDoc returns a status
400 error without calling the store; otherwise `couchdb.Delete` is called exactly once,
with the revision `h` when `h` is not empty and `q` otherwise, and the tombstone revision
the store returns is the `rev` of the response (an error of the store is returned). -/
theorem C12_deleteDoc_revision_sources {σ : Type} (env : Env σ) (c : Context) (s : σ)
    (doctype h q : String) (hget : c.Get "doctype" = some doctype)
    (hauth : env.CheckWritable c doctype = none)
    (hh : c.HeaderGet "If-Match" = h) (hq : c.QueryParam "rev" = q) :
    (((h = "" ∧ q = "") ∨ (h ≠ "" ∧ q ≠ "" ∧ h ≠ q)) →
      (deleteDoc env c s).calls = [] ∧ (deleteDoc env c s).store = s ∧
        ∃ detail, (deleteDoc env c s).result = .error (NewError StatusBadRequest detail)) ∧
    (¬ ((h = "" ∧ q = "") ∨ (h ≠ "" ∧ q ≠ "" ∧ h ≠ q)) →
      (deleteDoc env c s).calls =
          [.Delete (GetInstance c) doctype (c.Param "docid") (if h ≠ "" then h else q)] ∧
        (h = q → (deleteDoc env c s).calls =
          [.Delete (GetInstance c) doctype (c.Param "docid") h]) ∧
        (∀ tombrev s1,
          env.Delete s (GetInstance c) doctype (c.Param "docid") (if h ≠ "" then h else q)
              = (.ok tombrev, s1) →
            (deleteDoc env c s).result =
              .json StatusOK (.deleted true (c.Param "docid") tombrev doctype true)) ∧
        (∀ err s1,
          env.Delete s (GetInstance c) doctype (c.Param "docid") (if h ≠ "" then h else q)
              = (.error err, s1) →
            (deleteDoc env c s).result = .error err)) := by
  have hrev : ¬ ((h = "" ∧ q = "") ∨ (h ≠ "" ∧ q ≠ "" ∧ h ≠ q)) →
      deleteRev h q = .ok (if h ≠ "" then h else q) := by
    intro hn
    unfold deleteRev
    by_cases h1 : h = ""
    · by_cases h2 : q = ""
      · exact absurd (Or.inl ⟨h1, h2⟩) hn
      · simp [h1, h2]
    · by_cases h2 : q = ""
      · simp [h1, h2]
      · by_cases h3 : q = h
        · simp [h1, h3]
        · exact absurd (Or.inr ⟨h1, h2, fun e => h3 e.symm⟩) hn
  constructor
  · intro hbad
    have hrej : ∃ detail, deleteRev h q = .error (NewError StatusBadRequest detail) := by
      unfold deleteRev
      rcases hbad with ⟨h1, h2⟩ | ⟨h1, h2, h3⟩
      · exact ⟨"delete without revision", by simp [h1, h2]⟩
      · exact ⟨"If-Match Header and rev query parameters mismatch",
          by simp [h1, h2, Ne.symm h3]⟩
    obtain ⟨detail, hd⟩ := hrej
    refine ⟨?_, ?_, detail, ?_⟩ <;> simp only [deleteDoc, hget, hh, hq, hd]
  · intro hn
    have hcalls : (deleteDoc env c s).calls =
        [.Delete (GetInstance c) doctype (c.Param "docid") (if h ≠ "" then h else q)] := by
      simp only [deleteDoc, hget, hh, hq, hrev hn, hauth]
      rcases env.Delete s (GetInstance c) doctype (c.Param "docid") (if h ≠ "" then h else q)
        with ⟨r, s1⟩
      cases r <;> rfl
    refine ⟨hcalls, ?_, ?_, ?_⟩
    · intro heq
      rw [hcalls]
      subst heq
      simp
    · intro tombrev s1 hd
      simp only [deleteDoc, hget, hh, hq, hrev hn, hauth, hd]
    · intro err s1 hd
      simp only [deleteDoc, hget, hh, hq, hrev hn, hauth, hd]

/-- The instance of C12 at a delete with `If-Match: r1` and `rev=r1` on the store stub:
one `Delete` with `r1`, and the tombstone revision in the response. -/
theorem C12_deleteDoc_revision_sources_witness :
    deleteWithBothRevisions.Get "doctype" = some "io.cozy.events" ∧
      stubEnv.CheckWritable deleteWithBothRevisions "io.cozy.events" = none ∧
      deleteWithBothRevisions.HeaderGet "If-Match" = "r1" ∧
      deleteWithBothRevisions.QueryParam "rev" = "r1" ∧
      ¬ (("r1" = "" ∧ "r1" = "") ∨ ("r1" ≠ "" ∧ "r1" ≠ "" ∧ "r1" ≠ "r1")) ∧
      (deleteDoc stubEnv deleteWithBothRevisions 0).calls =
        [.Delete "cozy.example.net" "io.cozy.events" "42" "r1"] ∧
      (deleteDoc stubEnv deleteWithBothRevisions 0).result =
        .json StatusOK (.deleted true "42" "2-tombstone" "io.cozy.events" true) :=
  ⟨rfl, by decide, by decide, by decide, by decide,
    ((C12_deleteDoc_revision_sources stubEnv deleteWithBothRevisions 0 "io.cozy.events" "r1" "r1"
      rfl (by decide) (by decide) (by decide)).2 (by decide)).2.1 rfl,
    ((C12_deleteDoc_revision_sources stubEnv deleteWithBothRevisions 0 "io.cozy.events" "r1" "r1"
      rfl (by decide) (by decide) (by decide)).2 (by decide)).2.2.1 "2-tombstone" 1 rfl⟩

/-- C19: for every authorized upsert request that passes validation. When the body id and
revision are both empty, updateDoc sets the document id to the URL id and applies
`couchdb.CreateNamedDoc` to that document exactly once, and never `couchdb.UpdateDoc`:
the run is one `CreateNamedDoc` call, the store is left as that call leaves it, and the
answer is the document that call returns, or its error. When both are present and the id
is the URL id, it applies `couchdb.UpdateDoc` exactly once to the bound document, whose
id and revision are those of the body, and never `CreateNamedDoc`, with the run
determined by that call in the same way. -/
theorem C19_updateDoc_routes_create_or_update {σ : Type} (env : Env σ) (c : Context) (s : σ)
    (m : Map) (hbind : c.Bind = .ok m)
    (hauth : env.CheckWritable c (c.Param "doctype") = none) :
    ((JSONDoc.ID { M := m, Type_ := c.Param "doctype" } = "" ∧
        JSONDoc.Rev { M := m, Type_ := c.Param "doctype" } = "") →
      JSONDoc.ID (JSONDoc.SetID { M := m, Type_ := c.Param "doctype" } (c.Param "docid"))
          = c.Param "docid" ∧
        (updateDoc env c s).calls =
          [.CreateNamedDoc (GetInstance c)
            (JSONDoc.SetID { M := m, Type_ := c.Param "doctype" } (c.Param "docid"))] ∧
        (updateDoc env c s).store =
          (env.CreateNamedDoc s (GetInstance c)
            (JSONDoc.SetID { M := m, Type_ := c.Param "doctype" } (c.Param "docid"))).2 ∧
        (∀ doc1 s1,
          env.CreateNamedDoc s (GetInstance c)
              (JSONDoc.SetID { M := m, Type_ := c.Param "doctype" } (c.Param "docid"))
              = (.ok doc1, s1) →
            updateDoc env c s =
              ⟨.json StatusOK (.written true doc1.ID doc1.Rev doc1.DocType doc1), s1,
                [.CreateNamedDoc (GetInstance c)
                  (JSONDoc.SetID { M := m, Type_ := c.Param "doctype" } (c.Param "docid"))]⟩) ∧
        (∀ err s1,
          env.CreateNamedDoc s (GetInstance c)
              (JSONDoc.SetID { M := m, Type_ := c.Param "doctype" } (c.Param "docid"))
              = (.error err, s1) →
            updateDoc env c s =
              ⟨.error err, s1,
                [.CreateNamedDoc (GetInstance c)
                  (JSONDoc.SetID { M := m, Type_ := c.Param "doctype" } (c.Param "docid"))]⟩)) ∧
    ((JSONDoc.ID { M := m, Type_ := c.Param "doctype" } ≠ "" ∧
        JSONDoc.Rev { M := m, Type_ := c.Param "doctype" } ≠ "" ∧
        JSONDoc.ID { M := m, Type_ := c.Param "doctype" } = c.Param "docid") →
      (updateDoc env c s).calls =
          [.UpdateDoc (GetInstance c) { M := m, Type_ := c.Param "doctype" }] ∧
        (updateDoc env c s).store =
          (env.UpdateDoc s (GetInstance c) { M := m, Type_ := c.Param "doctype" }).2 ∧
        (∀ doc1 s1,
          env.UpdateDoc s (GetInstance c) { M := m, Type_ := c.Param "doctype" }
              = (.ok doc1, s1) →
            updateDoc env c s =
              ⟨.json StatusOK (.written true doc1.ID doc1.Rev doc1.DocType doc1), s1,
                [.UpdateDoc (GetInstance c) { M := m, Type_ := c.Param "doctype" }]⟩) ∧
        (∀ err s1,
          env.UpdateDoc s (GetInstance c) { M := m, Type_ := c.Param "doctype" }
              = (.error err, s1) →
            updateDoc env c s =
              ⟨.error err, s1,
                [.UpdateDoc (GetInstance c) { M := m, Type_ := c.Param "doctype" }]⟩)) := by
  constructor
  · rintro ⟨h1, h2⟩
    have hrun : updateDoc env c s =
        written StatusOK
          (.CreateNamedDoc (GetInstance c)
            (JSONDoc.SetID { M := m, Type_ := c.Param "doctype" } (c.Param "docid")))
          (env.CreateNamedDoc s (GetInstance c)
            (JSONDoc.SetID { M := m, Type_ := c.Param "doctype" } (c.Param "docid"))) := by
      simp only [updateDoc, hbind, hauth]
      simp [h1, h2]
    refine ⟨SetID_ID _ _, ?_, ?_, ?_, ?_⟩
    · rw [hrun, written_calls]
    · rw [hrun, written_store]
    · intro doc1 s1 hd
      rw [hrun, hd]
      rfl
    · intro err s1 hd
      rw [hrun, hd]
      rfl
  · rintro ⟨h1, h2, h3⟩
    have h1u : c.Param "docid" ≠ "" := by
      rw [← h3]
      exact h1
    have hrun : updateDoc env c s =
        written StatusOK (.UpdateDoc (GetInstance c) { M := m, Type_ := c.Param "doctype" })
          (env.UpdateDoc s (GetInstance c) { M := m, Type_ := c.Param "doctype" }) := by
      simp only [updateDoc, hbind, hauth]
      simp [h2, h3, h1u]
    refine ⟨?_, ?_, ?_, ?_⟩
    · rw [hrun, written_calls]
    · rw [hrun, written_store]
    · intro doc1 s1 hd
      rw [hrun, hd]
      rfl
    · intro err s1 hd
      rw [hrun, hd]
      rfl

/-- The instance of C19 at a replace without id and at a replace with the id of the URL
and a revision, on the store stub: the whole run, with the document and the state the
store call returns. -/
theorem C19_updateDoc_routes_create_or_update_witness :
    upsertWithoutID.Bind = .ok [("name", .string "party")] ∧
      stubEnv.CheckWritable upsertWithoutID (upsertWithoutID.Param "doctype") = none ∧
      updateDoc stubEnv upsertWithoutID 0 =
        ⟨.json StatusOK (.written true "42" "1-a" "io.cozy.events"
            { M := [("_rev", .string "1-a"), ("_id", .string "42"), ("name", .string "party")],
              Type_ := "io.cozy.events" }), 1,
          [.CreateNamedDoc "cozy.example.net"
            { M := [("_id", .string "42"), ("name", .string "party")],
              Type_ := "io.cozy.events" }]⟩ ∧
      upsertWithIDAndRev.Bind = .ok [("_id", .string "42"), ("_rev", .string "1-a")] ∧
      stubEnv.CheckWritable upsertWithIDAndRev (upsertWithIDAndRev.Param "doctype") = none ∧
      updateDoc stubEnv upsertWithIDAndRev 0 =
        ⟨.json StatusOK (.written true "42" "2-b" "io.cozy.events"
            { M := [("_rev", .string "2-b"), ("_id", .string "42")],
              Type_ := "io.cozy.events" }), 1,
          [.UpdateDoc "cozy.example.net"
            { M := [("_id", .string "42"), ("_rev", .string "1-a")],
              Type_ := "io.cozy.events" }]⟩ :=
  ⟨rfl, by decide,
    ((C19_updateDoc_routes_create_or_update stubEnv upsertWithoutID 0
      [("name", .string "party")] rfl (by decide)).1 (by decide)).2.2.2.1
      { M := [("_rev", .string "1-a"), ("_id", .string "42"), ("name", .string "party")],
        Type_ := "io.cozy.events" } 1 rfl,
    rfl, by decide,
    ((C19_updateDoc_routes_create_or_update stubEnv upsertWithIDAndRev 0
      [("_id", .string "42"), ("_rev", .string "1-a")] rfl (by decide)).2 (by decide)).2.2.1
      { M := [("_rev", .string "2-b"), ("_id", .string "42")], Type_ := "io.cozy.events" }
      1 rfl⟩

end data

namespace data

open permissions

/-- The first key outside the allow-list, when there is one, is a key of the request
that is not allowed. -/
theorem find_unsupported_some (keys : List String) (key : String)
    (h : keys.find? (fun key => !allowedChangesParams key) = some key) :
    key ∈ keys ∧ allowedChangesParams key = false := by
  refine ⟨List.mem_of_find?_eq_some h, ?_⟩
  have := List.find?_some h
  simpa using this

/-- No key is found outside the allow-list exactly when every key is allowed. -/
theorem find_unsupported_none (keys : List String) :
    keys.find? (fun key => !allowedChangesParams key) = none ↔
      ∀ key ∈ keys, allowedChangesParams key = true := by
  rw [List.find?_eq_none]
  constructor
  · intro h key hk
    simpa using h key hk
  · intro h key hk
    simpa using h key hk

/-- C13: for every changes-feed request whose query parameters include a name outside the
allow-list feed, style, since, limit, changesFeed returns a status 400 error whose
message names an offending parameter, whatever the validators and the store are, and no
store call is made; a request whose parameter names are all in the allow-list passes
this check: with a valid feed, style and limit it reaches `couchdb.GetChanges`. -/
theorem C13_changesFeed_allow_list {σ : Type} (env : Env σ) (c : Context) (s : σ) :
    (∀ key, allowedChangesParams key = true ↔ key ∈ ["feed", "style", "since", "limit"]) ∧
    ((∃ key ∈ c.query.map Prod.fst, allowedChangesParams key = false) →
      ∃ key ∈ c.query.map Prod.fst, allowedChangesParams key = false ∧
        ∀ env2 : Env σ, changesFeed env2 c s =
          ⟨.error (NewError StatusBadRequest ("Unsuported query parameter '" ++ key ++ "'")),
            s, []⟩) ∧
    ((∀ key ∈ c.query.map Prod.fst, allowedChangesParams key = true) →
      ∀ feed style limit doctype,
        env.ValidChangesMode (c.QueryParam "feed") = .ok feed →
        env.ValidChangesStyle (c.QueryParam "style") = .ok style →
        (if c.QueryParam "limit" ≠ "" then Atoi (c.QueryParam "limit") else .ok 0)
          = .ok limit →
        c.Get "doctype" = some doctype →
        (changesFeed env c s).calls =
          [.GetChanges (GetInstance c)
            { DocType := doctype, Feed := feed, Style := style,
              Since := c.QueryParam "since", Limit := limit }]) := by
  refine ⟨?_, ?_, ?_⟩
  · intro key
    simp only [allowedChangesParams, Bool.or_eq_true, decide_eq_true_eq, List.mem_cons,
      List.mem_singleton]
    tauto
  · rintro ⟨key, hk, hbad⟩
    cases hf : (c.query.map Prod.fst).find? (fun key => !allowedChangesParams key) with
    | none =>
      have := (find_unsupported_none _).mp hf key hk
      rw [hbad] at this
      exact absurd this (by decide)
    | some k =>
      obtain ⟨hmem, hnot⟩ := find_unsupported_some _ _ hf
      refine ⟨k, hmem, hnot, ?_⟩
      intro env2
      simp only [changesFeed, hf]
  · intro hall feed style limit doctype hfeed hstyle hlimit hget
    have hf := (find_unsupported_none _).mpr hall
    simp only [changesFeed, hf, hfeed, hstyle, hlimit, hget]

/-- The instance of C13 at the query `since=3&foo=bar` and at the query `since=3`. -/
theorem C13_changesFeed_allow_list_witness :
    (∃ key ∈ changesWithUnknownParam.query.map Prod.fst, allowedChangesParams key = false) ∧
      (∃ key ∈ changesWithUnknownParam.query.map Prod.fst, allowedChangesParams key = false ∧
        ∀ env2 : Env Nat, changesFeed env2 changesWithUnknownParam 0 =
          ⟨.error (NewError StatusBadRequest ("Unsuported query parameter '" ++ key ++ "'")),
            0, []⟩) ∧
      (∀ key ∈ changesSince.query.map Prod.fst, allowedChangesParams key = true) ∧
      (changesFeed stubEnv changesSince 0).calls =
        [.GetChanges "cozy.example.net"
          { DocType := "io.cozy.events", Feed := "", Style := "", Since := "3", Limit := 0 }] :=
  ⟨by decide,
    (C13_changesFeed_allow_list stubEnv changesWithUnknownParam 0).2.1 (by decide),
    by decide,
    (C13_changesFeed_allow_list stubEnv changesSince 0).2.2 (by decide) "" "" 0
      "io.cozy.events" rfl rfl rfl rfl⟩

end data

namespace data

open permissions

/-- A list of characters that is empty or holds a character that is not a digit has no
decimal value. -/
theorem digitsValue_none (ds : List Char) (h : (!ds.isEmpty && ds.all Char.isDigit) = false) :
    digitsValue ds = none := by
  unfold digitsValue
  cases ds with
  | nil => simp
  | cons d t =>
    simp only [List.isEmpty_cons, Bool.not_false, Bool.true_and] at h
    simp [h]

/-- The model of `strconv.Atoi` returns an error on a string that is not a decimal
integer. -/
theorem Atoi_error_of_not_decimal (s : String) (h : isDecimalInteger s = false) :
    ∃ msg, Atoi s = .error msg := by
  unfold isDecimalInteger at h
  unfold Atoi
  split at h
  · rename_i rest heq
    simp only [heq, digitsValue_none rest h]
    exact ⟨_, rfl⟩
  · rename_i rest heq
    simp only [heq, digitsValue_none rest h]
    exact ⟨_, rfl⟩
  · rename_i rest h1 h2
    have hm : (match s.data with
        | '+' :: rest => (false, rest)
        | '-' :: rest => (true, rest)
        | rest => (false, rest)) = (false, s.data) := by
      split
      · rename_i r hr
        exact absurd hr (h1 r)
      · rename_i r hr
        exact absurd hr (h2 r)
      · rfl
    simp only [hm, digitsValue_none s.data h]
    exact ⟨_, rfl⟩

/-- C14, as the code has it: for every changes-feed request with a valid feed and style.
When the limit parameter is a non-empty string that is not a decimal integer,
changesFeed returns a status 400 error, `couchdb.GetChanges` is never called and the
store is left as it was. When the limit parameter is absent or empty and every
parameter name is in the allow-list, on a request past `validDoctype`,
`couchdb.GetChanges` is applied exactly once, to the request with the limit 0: the store
is left as that call leaves it, and a response it returns without error is the answer. -/
theorem C14_changesFeed_rejects_bad_limit {σ : Type} (env : Env σ) (c : Context) (s : σ)
    (feed style : String) (hfeed : env.ValidChangesMode (c.QueryParam "feed") = .ok feed)
    (hstyle : env.ValidChangesStyle (c.QueryParam "style") = .ok style) :
    ((c.QueryParam "limit" ≠ "" ∧ isDecimalInteger (c.QueryParam "limit") = false) →
      (changesFeed env c s).calls = [] ∧ (changesFeed env c s).store = s ∧
        ∃ detail, (changesFeed env c s).result = .error (NewError StatusBadRequest detail)) ∧
    ((c.QueryParam "limit" = "" ∧
        ∀ key ∈ c.query.map Prod.fst, allowedChangesParams key = true) →
      ∀ doctype, c.Get "doctype" = some doctype →
        (changesFeed env c s).calls =
          [.GetChanges (GetInstance c)
            { DocType := doctype, Feed := feed, Style := style,
              Since := c.QueryParam "since", Limit := 0 }] ∧
        (changesFeed env c s).store =
          (env.GetChanges s (GetInstance c)
            { DocType := doctype, Feed := feed, Style := style,
              Since := c.QueryParam "since", Limit := 0 }).2 ∧
        (∀ results s1,
          env.GetChanges s (GetInstance c)
              { DocType := doctype, Feed := feed, Style := style,
                Since := c.QueryParam "since", Limit := 0 } = ((results, none), s1) →
            changesFeed env c s =
              ⟨.json StatusOK (.changes results), s1,
                [.GetChanges (GetInstance c)
                  { DocType := doctype, Feed := feed, Style := style,
                    Since := c.QueryParam "since", Limit := 0 }]⟩)) := by
  constructor
  · rintro ⟨hne, hbad⟩
    obtain ⟨msg, hmsg⟩ := Atoi_error_of_not_decimal _ hbad
    cases hf : (c.query.map Prod.fst).find? (fun key => !allowedChangesParams key) with
    | some k =>
      simp only [changesFeed, hf]
      exact ⟨trivial, trivial, _, rfl⟩
    | none =>
      simp only [changesFeed, hf, hfeed, hstyle, hne, ne_eq, not_false_eq_true, if_true, hmsg]
      exact ⟨trivial, trivial, _, rfl⟩
  · rintro ⟨hempty, hall⟩ doctype hget
    have hf := (find_unsupported_none _).mpr hall
    refine ⟨?_, ?_, ?_⟩
    · simp only [changesFeed, hf, hfeed, hstyle, hempty, ne_eq, not_true_eq_false, if_false,
        hget]
    · simp only [changesFeed, hf, hfeed, hstyle, hempty, ne_eq, not_true_eq_false, if_false,
        hget]
    · intro results s1 hd
      simp only [changesFeed, hf, hfeed, hstyle, hempty, ne_eq, not_true_eq_false, if_false,
        hget, hd]

/-- The instance of C14 at the query `limit=abc` and at the query `since=3`, on the store
stub: the first is rejected, the second is the whole run of one `GetChanges` call with
the limit 0. -/
theorem C14_changesFeed_rejects_bad_limit_witness :
    stubEnv.ValidChangesMode (changesWithBadLimit.QueryParam "feed") = .ok "" ∧
      stubEnv.ValidChangesStyle (changesWithBadLimit.QueryParam "style") = .ok "" ∧
      (changesWithBadLimit.QueryParam "limit" ≠ "" ∧
        isDecimalInteger (changesWithBadLimit.QueryParam "limit") = false) ∧
      ((changesFeed stubEnv changesWithBadLimit 0).calls = [] ∧
        (changesFeed stubEnv changesWithBadLimit 0).store = 0 ∧
        ∃ detail, (changesFeed stubEnv changesWithBadLimit 0).result =
          .error (NewError StatusBadRequest detail)) ∧
      (changesSince.QueryParam "limit" = "" ∧
        ∀ key ∈ changesSince.query.map Prod.fst, allowedChangesParams key = true) ∧
      changesSince.Get "doctype" = some "io.cozy.events" ∧
      changesFeed stubEnv changesSince 0 =
        ⟨.json StatusOK (.changes (some [("last_seq", .string "0")])), 1,
          [.GetChanges "cozy.example.net"
            { DocType := "io.cozy.events", Feed := "", Style := "", Since := "3",
              Limit := 0 }]⟩ :=
  ⟨rfl, rfl, by decide,
    (C14_changesFeed_rejects_bad_limit stubEnv changesWithBadLimit 0 "" "" rfl rfl).1
      (by decide),
    by decide, rfl,
    ((C14_changesFeed_rejects_bad_limit stubEnv changesSince 0 "" "" rfl rfl).2
      (by decide) "io.cozy.events" rfl).2.2 (some [("last_seq", .string "0")]) 1 rfl⟩

/-- C14 fails as stated: on the query `since=3&foo=bar` the feed and the style are valid
and the limit parameter is absent, yet the store is not called: the request is rejected
for the parameter `foo`, with the status 400 and the store as it was. -/
theorem C14_counterexample_unknown_param_without_limit :
    stubEnv.ValidChangesMode (changesWithUnknownParam.QueryParam "feed") = .ok "" ∧
      stubEnv.ValidChangesStyle (changesWithUnknownParam.QueryParam "style") = .ok "" ∧
      changesWithUnknownParam.QueryParam "limit" = "" ∧
      changesWithUnknownParam.Get "doctype" = some "io.cozy.events" ∧
      (changesFeed stubEnv changesWithUnknownParam 0).result =
        .error (NewError StatusBadRequest "Unsuported query parameter 'foo'") ∧
      (changesFeed stubEnv changesWithUnknownParam 0).calls = [] ∧
      (changesFeed stubEnv changesWithUnknownParam 0).store = 0 :=
  ⟨rfl, rfl, by decide, rfl, by decide, by decide, by decide⟩

/-- C15, as the code has it: for every changes-feed request that reaches the store, the
`Limit` passed to `couchdb.GetChanges` is 0 when the limit parameter is absent or empty,
and otherwise the integer `strconv.Atoi` reads from the parameter, negative values
included. -/
theorem C15_changesFeed_forwards_parsed_limit {σ : Type} (env : Env σ) (c : Context) (s : σ)
    (inst : String) (req : ChangesRequest)
    (hcall : Call.GetChanges inst req ∈ (changesFeed env c s).calls) :
    (c.QueryParam "limit" = "" ∧ req.Limit = 0) ∨
      (c.QueryParam "limit" ≠ "" ∧ Atoi (c.QueryParam "limit") = .ok req.Limit) := by
  unfold changesFeed at hcall
  simp only at hcall
  split at hcall
  · simp at hcall
  · split at hcall
    · simp at hcall
    · split at hcall
      · simp at hcall
      · split at hcall
        · simp at hcall
        · rename_i limit hlimit
          split at hcall
          · simp at hcall
          · simp only [List.mem_singleton, Call.GetChanges.injEq] at hcall
            obtain ⟨_, hreq⟩ := hcall
            subst hreq
            by_cases hl : c.QueryParam "limit" = ""
            · left
              refine ⟨hl, ?_⟩
              simp only [hl, ne_eq, not_true_eq_false, if_false, Except.ok.injEq] at hlimit
              exact hlimit.symm
            · right
              refine ⟨hl, ?_⟩
              simpa only [hl, ne_eq, not_false_eq_true, if_true] using hlimit

/-- The instance of C15 at the query `limit=-1` on the store stub. -/
theorem C15_changesFeed_forwards_parsed_limit_witness :
    Call.GetChanges "cozy.example.net"
        { DocType := "io.cozy.events", Feed := "", Style := "", Since := "", Limit := -1 }
        ∈ (changesFeed stubEnv changesWithNegativeLimit 0).calls ∧
      ((changesWithNegativeLimit.QueryParam "limit" = "" ∧ (-1 : Int) = 0) ∨
        (changesWithNegativeLimit.QueryParam "limit" ≠ "" ∧
          Atoi (changesWithNegativeLimit.QueryParam "limit") = .ok (-1))) :=
  ⟨by decide,
    C15_changesFeed_forwards_parsed_limit stubEnv changesWithNegativeLimit 0 "cozy.example.net"
      { DocType := "io.cozy.events", Feed := "", Style := "", Since := "", Limit := -1 }
      (by decide)⟩

/-- C15 fails as stated: on the query `limit=-1` changesFeed reaches the store, and the
`Limit` it passes to `couchdb.GetChanges` is -1, which is negative. -/
theorem C15_counterexample_negative_limit_forwarded :
    changesWithNegativeLimit.QueryParam "limit" = "-1" ∧
      (changesFeed stubEnv changesWithNegativeLimit 0).calls =
        [.GetChanges "cozy.example.net"
          { DocType := "io.cozy.events", Feed := "", Style := "", Since := "", Limit := -1 }] ∧
      ¬ ((0 : Int) ≤ -1) := by
  decide

/-- C17: on a changes-feed request for which `couchdb.GetChanges` returns an error,
changesFeed answers with the status 200 and the nil response instead of returning the
error. Whatever the store, changesFeed either makes no store call or answers with the
status 200. -/
theorem C17_changesFeed_drops_store_error :
    failingChangesEnv.GetChanges 0 "cozy.example.net"
        { DocType := "io.cozy.events", Feed := "", Style := "", Since := "3", Limit := 0 }
        = ((none, some (.foreign 503 "service_unavailable")), 1) ∧
      (changesFeed failingChangesEnv changesSince 0).calls =
        [.GetChanges "cozy.example.net"
          { DocType := "io.cozy.events", Feed := "", Style := "", Since := "3", Limit := 0 }] ∧
      (changesFeed failingChangesEnv changesSince 0).result = .json StatusOK (.changes none) ∧
      (changesFeed failingChangesEnv changesSince 0).result
        ≠ .error (.foreign 503 "service_unavailable") ∧
      ∀ (σ : Type) (env : Env σ) (c : Context) (s : σ),
        (changesFeed env c s).calls = [] ∨
          ∃ payload, (changesFeed env c s).result = .json StatusOK payload := by
  refine ⟨rfl, by decide, by decide, by decide, ?_⟩
  intro σ env c s
  unfold changesFeed
  simp only
  split
  · exact Or.inl rfl
  · split
    · exact Or.inl rfl
    · split
      · exact Or.inl rfl
      · split
        · exact Or.inl rfl
        · split
          · exact Or.inl rfl
          · exact Or.inr ⟨_, rfl⟩

end data

namespace data

open permissions

/-- C16: for every authorized define-index request: when the first
`couchdb.DefineIndexRaw` call fails with the no-such-database error, defineIndex makes
exactly one `couchdb.CreateDB` call and, when that succeeds, exactly one further
`DefineIndexRaw` call, whose result or error is returned without another retry (an
error of `CreateDB` is returned at once); when the first call fails with another error,
or succeeds, `DefineIndexRaw` is the only store call. A nil error is not a
no-such-database error. -/
theorem C16_defineIndex_heals_once {σ : Type} (env : Env σ) (c : Context) (s : σ)
    (doctype : String) (m : Map) (hget : c.Get "doctype" = some doctype)
    (hbind : c.Bind = .ok m) (hauth : env.CheckWritable c doctype = none)
    (hnil : env.IsNoDatabaseError none = false) :
    (∀ e s1, env.DefineIndexRaw s (GetInstance c) doctype m = (.error e, s1) →
      env.IsNoDatabaseError (some e) = true →
        (∀ e2 s2, env.CreateDB s1 (GetInstance c) doctype = (some e2, s2) →
          defineIndex env c s =
            ⟨.error e2, s2,
              [.DefineIndexRaw (GetInstance c) doctype m, .CreateDB (GetInstance c) doctype]⟩) ∧
        (∀ s2, env.CreateDB s1 (GetInstance c) doctype = (none, s2) →
          (∀ e3 s3, env.DefineIndexRaw s2 (GetInstance c) doctype m = (.error e3, s3) →
            defineIndex env c s =
              ⟨.error e3, s3,
                [.DefineIndexRaw (GetInstance c) doctype m, .CreateDB (GetInstance c) doctype,
                  .DefineIndexRaw (GetInstance c) doctype m]⟩) ∧
          (∀ result s3, env.DefineIndexRaw s2 (GetInstance c) doctype m = (.ok result, s3) →
            defineIndex env c s =
              ⟨.json StatusOK (.index result), s3,
                [.DefineIndexRaw (GetInstance c) doctype m, .CreateDB (GetInstance c) doctype,
                  .DefineIndexRaw (GetInstance c) doctype m]⟩))) ∧
    (∀ e s1, env.DefineIndexRaw s (GetInstance c) doctype m = (.error e, s1) →
      env.IsNoDatabaseError (some e) = false →
        defineIndex env c s = ⟨.error e, s1, [.DefineIndexRaw (GetInstance c) doctype m]⟩) ∧
    (∀ result s1, env.DefineIndexRaw s (GetInstance c) doctype m = (.ok result, s1) →
      defineIndex env c s =
        ⟨.json StatusOK (.index result), s1, [.DefineIndexRaw (GetInstance c) doctype m]⟩) := by
  refine ⟨?_, ?_, ?_⟩
  · intro e s1 h1 hno
    constructor
    · intro e2 s2 h2
      simp only [defineIndex, hget, hbind, hauth, h1, hno, if_true, h2]
    · intro s2 h2
      constructor
      · intro e3 s3 h3
        simp only [defineIndex, hget, hbind, hauth, h1, hno, if_true, h2, h3]
      · intro result s3 h3
        simp only [defineIndex, hget, hbind, hauth, h1, hno, if_true, h2, h3]
  · intro e s1 h1 hno
    simp [defineIndex, hget, hbind, hauth, h1, hno]
  · intro result s1 h1
    simp [defineIndex, hget, hbind, hauth, h1, hnil]

/-- The instance of C16 on the store stub, whose database does not exist at first: one
`DefineIndexRaw`, one `CreateDB`, one `DefineIndexRaw`, and the result of the last. -/
theorem C16_defineIndex_heals_once_witness :
    defineNameIndex.Get "doctype" = some "io.cozy.events" ∧
      defineNameIndex.Bind = .ok [("index", .raw "\x7b\"fields\":[\"name\"]\x7d")] ∧
      stubEnv.CheckWritable defineNameIndex "io.cozy.events" = none ∧
      stubEnv.IsNoDatabaseError none = false ∧
      stubEnv.IsNoDatabaseError (some (.foreign 404 "no_db_file")) = true ∧
      defineIndex stubEnv defineNameIndex 0 =
        ⟨.json StatusOK (.index [("result", .string "created")]), 3,
          [.DefineIndexRaw "cozy.example.net" "io.cozy.events"
              [("index", .raw "\x7b\"fields\":[\"name\"]\x7d")],
            .CreateDB "cozy.example.net" "io.cozy.events",
            .DefineIndexRaw "cozy.example.net" "io.cozy.events"
              [("index", .raw "\x7b\"fields\":[\"name\"]\x7d")]]⟩ :=
  ⟨rfl, rfl, by decide, by decide, by decide,
    (((C16_defineIndex_heals_once stubEnv defineNameIndex 0 "io.cozy.events"
      [("index", .raw "\x7b\"fields\":[\"name\"]\x7d")] rfl rfl (by decide) (by decide)).1
      (.foreign 404 "no_db_file") 1 rfl (by decide)).2 2 rfl).2
      [("result", .string "created")] 3 rfl⟩

/-- C18: the check `validDoctype` rejects with the status 400 error, whatever the wrapped
handler is, if and only if the doctype parameter is the empty string, and then the
wrapped handler is not run: no store call, the store as it was. Otherwise it records the
doctype in the context and its run is the run of the wrapped handler on that context. -/
theorem C18_validDoctype_rejects_iff_empty {σ : Type} (next : HandlerFunc σ) (c : Context)
    (s : σ) :
    (c.Param "doctype" = "" →
      validDoctype next c s =
        ⟨.error (NewError StatusBadRequest "Invalid doctype ''"), s, []⟩) ∧
    (c.Param "doctype" ≠ "" →
      validDoctype next c s = next (c.Set "doctype" (c.Param "doctype")) s ∧
        (c.Set "doctype" (c.Param "doctype")).Get "doctype" = some (c.Param "doctype")) ∧
    ((∀ nxt : HandlerFunc σ, ∃ detail,
        validDoctype nxt c s = ⟨.error (NewError StatusBadRequest detail), s, []⟩) ↔
      c.Param "doctype" = "") := by
  have hempty : ∀ nxt : HandlerFunc σ, c.Param "doctype" = "" →
      validDoctype nxt c s =
        ⟨.error (NewError StatusBadRequest "Invalid doctype ''"), s, []⟩ := by
    intro nxt h
    simp only [validDoctype, h, if_true]
    rfl
  have hrun : ∀ nxt : HandlerFunc σ, c.Param "doctype" ≠ "" →
      validDoctype nxt c s = nxt (c.Set "doctype" (c.Param "doctype")) s := by
    intro nxt h
    simp only [validDoctype, h, if_false]
  refine ⟨hempty next, fun h => ⟨hrun next h, Get_Set _ _ _⟩, ?_, ?_⟩
  · intro hall
    by_contra hne
    obtain ⟨detail, hd⟩ := hall (fun _ s0 => ⟨.panic, s0, []⟩)
    rw [hrun _ hne] at hd
    have := congrArg Run.result hd
    cases this
  · intro h nxt
    exact ⟨_, hempty nxt h⟩

/-- The instance of C18 at a request on the doctype `io.cozy.events` and the instance at
a request with an empty doctype, in front of a handler that echoes the recorded
doctype. -/
theorem C18_validDoctype_rejects_iff_empty_witness :
    (rawRequest "").Param "doctype" = "" ∧
      validDoctype echoDoctype (rawRequest "") 0 =
        ⟨.error (NewError StatusBadRequest "Invalid doctype ''"), 0, []⟩ ∧
      (rawRequest "io.cozy.events").Param "doctype" ≠ "" ∧
      (validDoctype echoDoctype (rawRequest "io.cozy.events") 0 =
          echoDoctype ((rawRequest "io.cozy.events").Set "doctype"
            ((rawRequest "io.cozy.events").Param "doctype")) 0 ∧
        ((rawRequest "io.cozy.events").Set "doctype"
            ((rawRequest "io.cozy.events").Param "doctype")).Get "doctype"
          = some ((rawRequest "io.cozy.events").Param "doctype")) :=
  ⟨rfl, (C18_validDoctype_rejects_iff_empty echoDoctype (rawRequest "") 0).1 rfl,
    by decide,
    (C18_validDoctype_rejects_iff_empty echoDoctype (rawRequest "io.cozy.events") 0).2.1
      (by decide)⟩

end data

namespace permissions

/-- C20: `String()` is not total. On the sets `VerbSplit("FOO")` and `VerbSplit("")`
the loop appends nothing and `out[1:]` is taken of the empty string, which panics. It
panics exactly on the sets that have neither zero nor five members and hold no defined
verb. -/
theorem C20_String_panics_without_defined_verb :
    VerbSet.String (VerbSplit "FOO") = none ∧ VerbSet.String (VerbSplit "") = none ∧
      ∀ vs : VerbSet, VerbSet.String vs = none ↔
        (vs.card ≠ 0 ∧ vs.card ≠ allVerbsLength ∧ ∀ v ∈ allVerbsOrder, v ∉ vs) := by
  refine ⟨by decide, by decide, ?_⟩
  intro vs
  unfold VerbSet.String
  by_cases h : vs.card = 0 ∨ vs.card = allVerbsLength
  · rw [if_pos h]
    constructor
    · intro H
      cases H
    · rintro ⟨h0, h5, _⟩
      rcases h with h | h
      · exact absurd h h0
      · exact absurd h h5
  · rw [if_neg h]
    have h0 : vs.card ≠ 0 := fun e => h (Or.inl e)
    have h5 : vs.card ≠ allVerbsLength := fun e => h (Or.inr e)
    simp only [allVerbsOrder, List.foldl, List.mem_cons, List.mem_singleton, forall_eq_or_imp,
      forall_eq, List.not_mem_nil, false_implies, implies_true, and_true, ne_eq, h0, h5,
      not_false_eq_true, true_and]
    by_cases h1 : GET ∈ vs <;> by_cases h2 : POST ∈ vs <;> by_cases h3 : PUT ∈ vs <;>
      by_cases h4 : PATCH ∈ vs <;> by_cases h5 : DELETE ∈ vs <;>
      simp only [h1, h2, h3, h4, h5, if_true, if_false] <;> decide

end permissions
